import Mathlib

/-!
Shallow embedding of the CrossPoint calendar worker's rendering and encoding
engine (`src/worker/src/index.ts`).

Modelling conventions:
* JS numbers that the program only ever uses as integers are modelled as `Int`
  (coordinates, scales, condition codes) or `Nat` (colors, byte values, list
  indices), with explicit `% 256` where a `Uint8Array` store truncates.
* A mutable `Uint8Array` pixel buffer is modelled by its *write trace*: each
  drawing primitive returns the list of `(index, value)` stores it performs on
  `pixels`, in program order.  A store `pixels[i] = v` on a `Uint8Array` of
  length `size` takes effect exactly when `0 ≤ i < size` (out-of-range stores
  on a JS typed array are silently dropped); `applyWrites` reproduces that.
* The trigonometric pixel placement in the weather icons
  (`Math.round(c + r*Math.cos/sin(angle))`) is floating point.  It is modelled
  by an `ArcOracle` parameter: an arbitrary placement function constrained by
  the bounds `c - r - 1 ≤ pt ≤ c + r + 1`, which the actual float computation
  satisfies (|cos| ≤ 1, |sin| ≤ 1, rounding error ≤ 1/2, float error ≪ 1/2).
  Theorems quantify over every oracle, hence hold for the real one.
-/

/-- Grayscale color constant `INK_BLACK` (index.ts line 287). -/
def INK_BLACK : Nat := 0

/-- Grayscale color constant `DARK_GRAY` (index.ts line 288). -/
def DARK_GRAY : Nat := 64

/-- Grayscale color constant `LIGHT_GRAY` (index.ts line 289). -/
def LIGHT_GRAY : Nat := 176

/-- Grayscale color constant `PAPER_WHITE` (index.ts line 290). -/
def PAPER_WHITE : Nat := 255

/-- A pixel buffer, as the byte stored at each index. -/
def Buf : Type := Int → Nat

/-- One `pixels[i] = v` store on a typed array of length `size`: it takes
effect only for `0 ≤ i < size`, and stores `v % 256`. -/
def applyWrite (size : Int) (b : Buf) (i : Int) (v : Nat) : Buf :=
  if 0 ≤ i ∧ i < size then (fun j => if j = i then v % 256 else b j) else b

/-- Replay a write trace, first element first. -/
def applyWrites (size : Int) : List (Int × Nat) → Buf → Buf
  | [], b => b
  | iv :: ws, b => applyWrites size ws (applyWrite size b iv.1 iv.2)

/-- The integers `a, a+1, ..., b-1` (empty when `b ≤ a`); models an ascending
`for` loop over an integer range. -/
def intRange (a b : Int) : List Int :=
  (List.range (b - a).toNat).map (fun (k : Nat) => a + (k : Int))

/-- Bitmap font table `FONT_DATA` (index.ts lines 293-367): each supported
character maps to 12 eight-bit rows; unsupported characters are absent. -/
def FONT_DATA : Char → Option (List Nat)
  | '0' => some [0x3C,0x66,0x6E,0x76,0x66,0x66,0x3C,0x00,0x00,0x00,0x00,0x00]
  | '1' => some [0x18,0x38,0x18,0x18,0x18,0x18,0x7E,0x00,0x00,0x00,0x00,0x00]
  | '2' => some [0x3C,0x66,0x06,0x1C,0x30,0x60,0x7E,0x00,0x00,0x00,0x00,0x00]
  | '3' => some [0x3C,0x66,0x06,0x1C,0x06,0x66,0x3C,0x00,0x00,0x00,0x00,0x00]
  | '4' => some [0x0C,0x1C,0x3C,0x6C,0x7E,0x0C,0x0C,0x00,0x00,0x00,0x00,0x00]
  | '5' => some [0x7E,0x60,0x7C,0x06,0x06,0x66,0x3C,0x00,0x00,0x00,0x00,0x00]
  | '6' => some [0x1C,0x30,0x60,0x7C,0x66,0x66,0x3C,0x00,0x00,0x00,0x00,0x00]
  | '7' => some [0x7E,0x06,0x0C,0x18,0x30,0x30,0x30,0x00,0x00,0x00,0x00,0x00]
  | '8' => some [0x3C,0x66,0x66,0x3C,0x66,0x66,0x3C,0x00,0x00,0x00,0x00,0x00]
  | '9' => some [0x3C,0x66,0x66,0x3E,0x06,0x0C,0x38,0x00,0x00,0x00,0x00,0x00]
  | 'A' => some [0x18,0x3C,0x66,0x66,0x7E,0x66,0x66,0x00,0x00,0x00,0x00,0x00]
  | 'B' => some [0x7C,0x66,0x66,0x7C,0x66,0x66,0x7C,0x00,0x00,0x00,0x00,0x00]
  | 'C' => some [0x3C,0x66,0x60,0x60,0x60,0x66,0x3C,0x00,0x00,0x00,0x00,0x00]
  | 'D' => some [0x78,0x6C,0x66,0x66,0x66,0x6C,0x78,0x00,0x00,0x00,0x00,0x00]
  | 'E' => some [0x7E,0x60,0x60,0x7C,0x60,0x60,0x7E,0x00,0x00,0x00,0x00,0x00]
  | 'F' => some [0x7E,0x60,0x60,0x7C,0x60,0x60,0x60,0x00,0x00,0x00,0x00,0x00]
  | 'G' => some [0x3C,0x66,0x60,0x6E,0x66,0x66,0x3C,0x00,0x00,0x00,0x00,0x00]
  | 'H' => some [0x66,0x66,0x66,0x7E,0x66,0x66,0x66,0x00,0x00,0x00,0x00,0x00]
  | 'I' => some [0x3C,0x18,0x18,0x18,0x18,0x18,0x3C,0x00,0x00,0x00,0x00,0x00]
  | 'J' => some [0x06,0x06,0x06,0x06,0x06,0x66,0x3C,0x00,0x00,0x00,0x00,0x00]
  | 'K' => some [0x66,0x6C,0x78,0x70,0x78,0x6C,0x66,0x00,0x00,0x00,0x00,0x00]
  | 'L' => some [0x60,0x60,0x60,0x60,0x60,0x60,0x7E,0x00,0x00,0x00,0x00,0x00]
  | 'M' => some [0x63,0x77,0x7F,0x6B,0x63,0x63,0x63,0x00,0x00,0x00,0x00,0x00]
  | 'N' => some [0x66,0x76,0x7E,0x7E,0x6E,0x66,0x66,0x00,0x00,0x00,0x00,0x00]
  | 'O' => some [0x3C,0x66,0x66,0x66,0x66,0x66,0x3C,0x00,0x00,0x00,0x00,0x00]
  | 'P' => some [0x7C,0x66,0x66,0x7C,0x60,0x60,0x60,0x00,0x00,0x00,0x00,0x00]
  | 'Q' => some [0x3C,0x66,0x66,0x66,0x6A,0x6C,0x36,0x00,0x00,0x00,0x00,0x00]
  | 'R' => some [0x7C,0x66,0x66,0x7C,0x6C,0x66,0x66,0x00,0x00,0x00,0x00,0x00]
  | 'S' => some [0x3C,0x66,0x60,0x3C,0x06,0x66,0x3C,0x00,0x00,0x00,0x00,0x00]
  | 'T' => some [0x7E,0x18,0x18,0x18,0x18,0x18,0x18,0x00,0x00,0x00,0x00,0x00]
  | 'U' => some [0x66,0x66,0x66,0x66,0x66,0x66,0x3C,0x00,0x00,0x00,0x00,0x00]
  | 'V' => some [0x66,0x66,0x66,0x66,0x66,0x3C,0x18,0x00,0x00,0x00,0x00,0x00]
  | 'W' => some [0x63,0x63,0x63,0x6B,0x7F,0x77,0x63,0x00,0x00,0x00,0x00,0x00]
  | 'X' => some [0x66,0x66,0x3C,0x18,0x3C,0x66,0x66,0x00,0x00,0x00,0x00,0x00]
  | 'Y' => some [0x66,0x66,0x66,0x3C,0x18,0x18,0x18,0x00,0x00,0x00,0x00,0x00]
  | 'Z' => some [0x7E,0x06,0x0C,0x18,0x30,0x60,0x7E,0x00,0x00,0x00,0x00,0x00]
  | 'a' => some [0x00,0x00,0x3C,0x06,0x3E,0x66,0x3E,0x00,0x00,0x00,0x00,0x00]
  | 'b' => some [0x60,0x60,0x7C,0x66,0x66,0x66,0x7C,0x00,0x00,0x00,0x00,0x00]
  | 'c' => some [0x00,0x00,0x3C,0x66,0x60,0x66,0x3C,0x00,0x00,0x00,0x00,0x00]
  | 'd' => some [0x06,0x06,0x3E,0x66,0x66,0x66,0x3E,0x00,0x00,0x00,0x00,0x00]
  | 'e' => some [0x00,0x00,0x3C,0x66,0x7E,0x60,0x3C,0x00,0x00,0x00,0x00,0x00]
  | 'f' => some [0x1C,0x36,0x30,0x7C,0x30,0x30,0x30,0x00,0x00,0x00,0x00,0x00]
  | 'g' => some [0x00,0x00,0x3E,0x66,0x66,0x3E,0x06,0x3C,0x00,0x00,0x00,0x00]
  | 'h' => some [0x60,0x60,0x7C,0x66,0x66,0x66,0x66,0x00,0x00,0x00,0x00,0x00]
  | 'i' => some [0x18,0x00,0x38,0x18,0x18,0x18,0x3C,0x00,0x00,0x00,0x00,0x00]
  | 'j' => some [0x0C,0x00,0x1C,0x0C,0x0C,0x0C,0x6C,0x38,0x00,0x00,0x00,0x00]
  | 'k' => some [0x60,0x60,0x66,0x6C,0x78,0x6C,0x66,0x00,0x00,0x00,0x00,0x00]
  | 'l' => some [0x38,0x18,0x18,0x18,0x18,0x18,0x3C,0x00,0x00,0x00,0x00,0x00]
  | 'm' => some [0x00,0x00,0x76,0x7F,0x6B,0x6B,0x63,0x00,0x00,0x00,0x00,0x00]
  | 'n' => some [0x00,0x00,0x7C,0x66,0x66,0x66,0x66,0x00,0x00,0x00,0x00,0x00]
  | 'o' => some [0x00,0x00,0x3C,0x66,0x66,0x66,0x3C,0x00,0x00,0x00,0x00,0x00]
  | 'p' => some [0x00,0x00,0x7C,0x66,0x66,0x7C,0x60,0x60,0x00,0x00,0x00,0x00]
  | 'q' => some [0x00,0x00,0x3E,0x66,0x66,0x3E,0x06,0x06,0x00,0x00,0x00,0x00]
  | 'r' => some [0x00,0x00,0x6E,0x76,0x60,0x60,0x60,0x00,0x00,0x00,0x00,0x00]
  | 's' => some [0x00,0x00,0x3E,0x60,0x3C,0x06,0x7C,0x00,0x00,0x00,0x00,0x00]
  | 't' => some [0x30,0x30,0x7C,0x30,0x30,0x36,0x1C,0x00,0x00,0x00,0x00,0x00]
  | 'u' => some [0x00,0x00,0x66,0x66,0x66,0x66,0x3E,0x00,0x00,0x00,0x00,0x00]
  | 'v' => some [0x00,0x00,0x66,0x66,0x66,0x3C,0x18,0x00,0x00,0x00,0x00,0x00]
  | 'w' => some [0x00,0x00,0x63,0x6B,0x6B,0x7F,0x36,0x00,0x00,0x00,0x00,0x00]
  | 'x' => some [0x00,0x00,0x66,0x3C,0x18,0x3C,0x66,0x00,0x00,0x00,0x00,0x00]
  | 'y' => some [0x00,0x00,0x66,0x66,0x66,0x3E,0x06,0x3C,0x00,0x00,0x00,0x00]
  | 'z' => some [0x00,0x00,0x7E,0x0C,0x18,0x30,0x7E,0x00,0x00,0x00,0x00,0x00]
  | ' ' => some [0x00,0x00,0x00,0x00,0x00,0x00,0x00,0x00,0x00,0x00,0x00,0x00]
  | ':' => some [0x00,0x18,0x18,0x00,0x18,0x18,0x00,0x00,0x00,0x00,0x00,0x00]
  | '.' => some [0x00,0x00,0x00,0x00,0x00,0x18,0x18,0x00,0x00,0x00,0x00,0x00]
  | ',' => some [0x00,0x00,0x00,0x00,0x00,0x18,0x18,0x30,0x00,0x00,0x00,0x00]
  | '-' => some [0x00,0x00,0x00,0x7E,0x00,0x00,0x00,0x00,0x00,0x00,0x00,0x00]
  | '/' => some [0x06,0x0C,0x18,0x30,0x60,0x40,0x00,0x00,0x00,0x00,0x00,0x00]
  | '°' => some [0x1C,0x36,0x36,0x1C,0x00,0x00,0x00,0x00,0x00,0x00,0x00,0x00]
  | '\x27' => some [0x18,0x18,0x30,0x00,0x00,0x00,0x00,0x00,0x00,0x00,0x00,0x00]
  | '(' => some [0x0C,0x18,0x30,0x30,0x30,0x18,0x0C,0x00,0x00,0x00,0x00,0x00]
  | ')' => some [0x30,0x18,0x0C,0x0C,0x0C,0x18,0x30,0x00,0x00,0x00,0x00,0x00]
  | '+' => some [0x00,0x18,0x18,0x7E,0x18,0x18,0x00,0x00,0x00,0x00,0x00,0x00]
  | _ => none

/-- Write trace of `drawChar` (index.ts lines 369-389): looks up the glyph
(no-op when absent); for every set bit of rows 0-7 paints a `scale×scale`
block; each single store is guarded by `px >= 0 && px < width && py >= 0`
(the source does not guard `py < height`). -/
def drawChar (width x y : Int) (char : Char) (color : Nat) (scale : Int) :
    List (Int × Nat) :=
  match FONT_DATA char with
  | none => []
  | some data =>
    (List.range 8).flatMap fun row =>
      let rowData := data.getD row 0
      (List.range 8).flatMap fun col =>
        if rowData &&& (0x80 >>> col) ≠ 0 then
          (intRange 0 scale).flatMap fun sy =>
            (intRange 0 scale).flatMap fun sx =>
              let px := x + (col : Int) * scale + sx
              let py := y + (row : Int) * scale + sy
              if 0 ≤ px ∧ px < width ∧ 0 ≤ py then [(py * width + px, color)]
              else []
        else []

/-- Helper for `drawText`: iterates the characters, advancing the cursor `cx`
by `8 * scale` after each one (index.ts lines 391-397). -/
def drawTextAux (width y : Int) (color : Nat) (scale : Int) :
    List Char → Int → List (Int × Nat)
  | [], _ => []
  | c :: cs, cx =>
      drawChar width cx y c color scale ++
        drawTextAux width y color scale cs (cx + 8 * scale)

/-- Write trace of `drawText` (index.ts lines 391-397). -/
def drawText (width x y : Int) (text : String) (color : Nat) (scale : Int) :
    List (Int × Nat) :=
  drawTextAux width y color scale text.data x

/-- Embedding of `getTextWidth` (index.ts lines 399-401):
`text.length * 8 * scale`. -/
def getTextWidth (text : String) (scale : Int) : Int :=
  (text.length : Int) * 8 * scale

/-- Write trace of `drawCenteredText` (index.ts lines 403-407); `Math.floor`
is floor division `Int.fdiv`. -/
def drawCenteredText (width y : Int) (text : String) (color : Nat)
    (scale : Int) : List (Int × Nat) :=
  drawText width (Int.fdiv (width - getTextWidth text scale) 2) y text color scale

/-- Write trace of `drawRightAlignedText` (index.ts lines 409-413). -/
def drawRightAlignedText (width y : Int) (text : String) (color : Nat)
    (scale margin : Int) : List (Int × Nat) :=
  drawText width (width - margin - getTextWidth text scale) y text color scale

/-- Write trace of `fillRect` (index.ts lines 415-423): row loop
`py = y` while `py < y + h && py < height`, column loop `px = x` while
`px < x + w && px < width`, store guarded by `px >= 0 && py >= 0`. -/
def fillRect (width height x y w h : Int) (color : Nat) : List (Int × Nat) :=
  (intRange y (min (y + h) height)).flatMap fun py =>
    (intRange x (min (x + w) width)).flatMap fun px =>
      if 0 ≤ px ∧ 0 ≤ py then [(py * width + px, color)] else []

/-- Write trace of `drawHLine` (index.ts lines 425-427): a `fillRect` with the
sentinel height `9999`. -/
def drawHLine (width y x1 x2 : Int) (color : Nat) (thickness : Int) :
    List (Int × Nat) :=
  fillRect width 9999 x1 y (x2 - x1) thickness color

/-- Loop of `drawDashedHLine` (index.ts lines 429-444), with explicit fuel:
each iteration advances `x` by `dashLen` or `gapLen`, so for the positive
dash/gap lengths the program uses, `(x2 - x1).toNat` iterations always reach
`x ≥ x2` and the fuel never runs out.  The stores are unguarded in the
source. -/
def dashedLoop (width y : Int) (color : Nat) (dashLen gapLen x2 : Int) :
    Nat → Int → Bool → List (Int × Nat)
  | 0, _, _ => []
  | fuel + 1, x, drawing =>
    if x < x2 then
      if drawing then
        (intRange x (min (x + dashLen) x2)).map
            (fun px => (y * width + px, color)) ++
          dashedLoop width y color dashLen gapLen x2 fuel (x + dashLen) false
      else
        dashedLoop width y color dashLen gapLen x2 fuel (x + gapLen) true
    else []

/-- Write trace of `drawDashedHLine` (index.ts lines 429-444). -/
def drawDashedHLine (width y x1 x2 : Int) (color : Nat)
    (dashLen gapLen : Int) : List (Int × Nat) :=
  dashedLoop width y color dashLen gapLen x2 (x2 - x1).toNat x1 true

/-- JS `Math.round` on the (near-)exact rational value: round half toward
positive infinity. -/
def jsRound (q : ℚ) : Int := ⌊q + 1/2⌋

/-- Oracle for the floating-point circle sampling
`Math.round(c + r * Math.cos(angle * π/180))` (and the `sin` analogue) used by
the sun and cloud icons.  Any concrete placement function is admissible as
long as it satisfies the bounds `c - r - 1 ≤ pt c r a ≤ c + r + 1`, which the
actual float computation does (|cos|, |sin| ≤ 1, rounding ≤ 1/2). -/
structure ArcOracle where
  ptX : ℚ → ℚ → Int → Int
  ptY : ℚ → ℚ → Int → Int
  ptX_lb : ∀ c r a, 0 ≤ r → c - r - 1 ≤ (ptX c r a : ℚ)
  ptX_ub : ∀ c r a, 0 ≤ r → (ptX c r a : ℚ) ≤ c + r + 1
  ptY_lb : ∀ c r a, 0 ≤ r → c - r - 1 ≤ (ptY c r a : ℚ)
  ptY_ub : ∀ c r a, 0 ≤ r → (ptY c r a : ℚ) ≤ c + r + 1

/-- The ray interpolation `Math.round(x1 + (x2 - x1) * t / 10)` of the sun
icon (index.ts lines 472-474); exact rational arithmetic on the integer
endpoints. -/
def interpRound (a b : Int) (t : Nat) : Int :=
  jsRound ((a : ℚ) + ((b : ℚ) - (a : ℚ)) * (t : ℚ) / 10)

/-- Sun branch of `drawWeatherIcon` (index.ts lines 450-477): a sampled
circle (guarded only by `px >= 0 && px < width`) plus 8 radial rays (guarded
by `px >= 0 && px < width && py >= 0`). -/
def sunIcon (o : ArcOracle) (width x y : Int) : List (Int × Nat) :=
  let cx := x + 48 / 2
  let cy := y + 48 / 2
  ((List.range 72).map (fun (k : Nat) => 5 * (k : Int))).flatMap (fun angle =>
    let px := o.ptX (cx : ℚ) 14 angle
    let py := o.ptY (cy : ℚ) 14 angle
    if 0 ≤ px ∧ px < width then [(py * width + px, INK_BLACK)] else []) ++
  (List.range 8).flatMap (fun (i : Nat) =>
    let angle := 45 * (i : Int)
    let x1 := o.ptX (cx : ℚ) (14 + 4) angle
    let y1 := o.ptY (cy : ℚ) (14 + 4) angle
    let x2 := o.ptX (cx : ℚ) (14 + 10) angle
    let y2 := o.ptY (cy : ℚ) (14 + 10) angle
    (List.range 11).flatMap (fun t =>
      let px := interpRound x1 x2 t
      let py := interpRound y1 y2 t
      if 0 ≤ px ∧ px < width ∧ 0 ≤ py then [(py * width + px, INK_BLACK)]
      else []))

/-- Write trace of `drawCloudShape` (index.ts lines 529-561): three arcs
sampled from 180° to 360° in 3° steps (each store guarded by
`px >= 0 && px < width && py >= 0`), then a bottom line. -/
def drawCloudShape (o : ArcOracle) (width x y w h : Int) : List (Int × Nat) :=
  let cx1 : ℚ := (x : ℚ) + (w : ℚ) * (3/10)
  let cy1 : ℚ := (y : ℚ) + (h : ℚ) * (4/10)
  let r1 : ℚ := (h : ℚ) * (4/10)
  let cx2 : ℚ := (x : ℚ) + (w : ℚ) * (6/10)
  let cy2 : ℚ := (y : ℚ) + (h : ℚ) * (3/10)
  let r2 : ℚ := (h : ℚ) * (5/10)
  let cx3 : ℚ := (x : ℚ) + (w : ℚ) * (8/10)
  let cy3 : ℚ := (y : ℚ) + (h : ℚ) * (5/10)
  let r3 : ℚ := (h : ℚ) * (35/100)
  (((List.range 61).map (fun (k : Nat) => 180 + 3 * (k : Int))).flatMap (fun angle =>
    (let px := o.ptX cx1 r1 angle
     let py := o.ptY cy1 r1 angle
     if 0 ≤ px ∧ px < width ∧ 0 ≤ py then [(py * width + px, INK_BLACK)]
     else []) ++
    (let px := o.ptX cx2 r2 angle
     let py := o.ptY cy2 r2 angle
     if 0 ≤ px ∧ px < width ∧ 0 ≤ py then [(py * width + px, INK_BLACK)]
     else []) ++
    (let px := o.ptX cx3 r3 angle
     let py := o.ptY cy3 r3 angle
     if 0 ≤ px ∧ px < width ∧ 0 ≤ py then [(py * width + px, INK_BLACK)]
     else []))) ++
  drawHLine width (jsRound ((y : ℚ) + (h : ℚ) * (3/4)))
    (jsRound ((x : ℚ) + (w : ℚ) * (1/10)))
    (jsRound ((x : ℚ) + (w : ℚ) * (19/20))) INK_BLACK 1

/-- Cloud branch of `drawWeatherIcon` (index.ts lines 478-480). -/
def cloudIcon (o : ArcOracle) (width x y : Int) : List (Int × Nat) :=
  drawCloudShape o width (x + 8) (y + 16) 32 20

/-- Fog branch of `drawWeatherIcon` (index.ts lines 481-486): four horizontal
bands. -/
def fogIcon (width x y : Int) : List (Int × Nat) :=
  (List.range 4).flatMap fun (i : Nat) =>
    drawHLine width (y + 12 + (i : Int) * 10) (x + 4) (x + 48 - 4) DARK_GRAY 2

/-- Rain branch of `drawWeatherIcon` (index.ts lines 487-497): cloud plus
three unguarded vertical drop marks. -/
def rainIcon (o : ArcOracle) (width x y : Int) : List (Int × Nat) :=
  drawCloudShape o width (x + 8) (y + 8) 32 16 ++
  (List.range 3).flatMap fun (i : Nat) =>
    let dx := x + 14 + (i : Int) * 10
    let dy := y + 32
    (List.range 8).map fun (j : Nat) => ((dy + (j : Int)) * width + dx, INK_BLACK)

/-- Snow branch of `drawWeatherIcon` (index.ts lines 498-510): cloud plus
three unguarded 5-point asterisk marks. -/
def snowIcon (o : ArcOracle) (width x y : Int) : List (Int × Nat) :=
  drawCloudShape o width (x + 8) (y + 8) 32 16 ++
  (List.range 3).flatMap fun (i : Nat) =>
    let sx := x + 14 + (i : Int) * 10
    let sy := y + 36
    [(sy * width + sx, INK_BLACK),
     ((sy - 2) * width + sx, INK_BLACK),
     ((sy + 2) * width + sx, INK_BLACK),
     (sy * width + sx - 2, INK_BLACK),
     (sy * width + sx + 2, INK_BLACK)]

/-- Thunderstorm branch of `drawWeatherIcon` (index.ts lines 511-522): cloud
plus an unguarded zig-zag bolt, two pixels wide. -/
def thunderIcon (o : ArcOracle) (width x y : Int) : List (Int × Nat) :=
  drawCloudShape o width (x + 8) (y + 4) 32 16 ++
  (List.range 12).flatMap fun (i : Nat) =>
    let px := (x + 24) + (if i < 6 then -(i : Int) else (i : Int) - 12)
    let py := (y + 24) + (i : Int) * 2
    [(py * width + px, INK_BLACK), (py * width + px + 1, INK_BLACK)]

/-- Unknown-code branch of `drawWeatherIcon` (index.ts lines 523-526): a
question mark at scale 3 (the font table has no glyph for `?`, so this
rasterizes to nothing). -/
def unknownIcon (width x y : Int) : List (Int × Nat) :=
  drawText width (x + 16) (y + 16) "?" INK_BLACK 3

/-- Write trace of `drawWeatherIcon` (index.ts lines 447-527): the dispatch
chain over the WMO condition code. -/
def drawWeatherIcon (o : ArcOracle) (width x y code : Int) :
    List (Int × Nat) :=
  if code = 0 ∨ code = 1 then sunIcon o width x y
  else if 2 ≤ code ∧ code ≤ 3 then cloudIcon o width x y
  else if 45 ≤ code ∧ code ≤ 48 then fogIcon width x y
  else if (51 ≤ code ∧ code ≤ 67) ∨ (80 ≤ code ∧ code ≤ 82) then
    rainIcon o width x y
  else if (71 ≤ code ∧ code ≤ 77) ∨ (85 ≤ code ∧ code ≤ 86) then
    snowIcon o width x y
  else if 95 ≤ code then thunderIcon o width x y
  else unknownIcon width x y

/-- Title-truncation loop of `renderDisplay` (index.ts lines 680-683), with
explicit fuel: `while (getTextWidth(title, 2) > maxTitleWidth &&
title.length > 3) title = title.slice(0, -4) + '...'`.  Each iteration
shortens the title by one character, so `title.length` iterations always
suffice (proved below). -/
def truncateLoop (maxTitleWidth : Int) : Nat → String → String
  | 0, title => title
  | fuel + 1, title =>
    if getTextWidth title 2 > maxTitleWidth ∧ title.length > 3 then
      truncateLoop maxTitleWidth fuel
        (String.mk (title.data.take (title.length - 4)) ++ "...")
    else title

/-- The truncation procedure applied to a title (index.ts lines 680-683). -/
def truncateTitle (maxTitleWidth : Int) (title : String) : String :=
  truncateLoop maxTitleWidth title.length title

/-- Weather payload consumed by the composer (index.ts lines 18-24). -/
structure WeatherData where
  temperature : Int
  temperatureHigh : Int
  temperatureLow : Int
  condition : String
  conditionCode : Int

/-- Calendar event (index.ts lines 27-31). -/
structure CalendarEvent where
  time : String
  title : String
  isAllDay : Bool
deriving DecidableEq

/-- Day of events (index.ts lines 34-38); the `date` field is not read by
`renderDisplay`, so it is omitted from the embedding. -/
structure DayEvents where
  label : String
  events : List CalendarEvent
deriving DecidableEq

/-- Projections of the JS `Date` used by `renderDisplay`: `getDay()`
(0..6), `getMonth()` (0..11), `getDate()`, and the formatted
`toLocaleTimeString` result used in the footer. -/
structure DateLike where
  getDay : Nat
  getMonth : Nat
  getDate : Int
  timeString : String

/-- The `DAY_NAMES` table (index.ts line 108). -/
def DAY_NAMES : List String :=
  ["SUNDAY", "MONDAY", "TUESDAY", "WEDNESDAY", "THURSDAY", "FRIDAY",
   "SATURDAY"]

/-- The `monthNames` table (index.ts line 613). -/
def monthNames : List String :=
  ["JAN", "FEB", "MAR", "APR", "MAY", "JUN", "JUL", "AUG", "SEP", "OCT",
   "NOV", "DEC"]

/-- One call of `renderDisplay` to a drawing primitive, in program order;
`cmdWrites` below gives each call's pixel-store trace. -/
inductive Cmd where
  | text (x y : Int) (s : String) (color : Nat) (scale : Int)
  | centered (y : Int) (s : String) (color : Nat) (scale : Int)
  | rightAligned (y : Int) (s : String) (color : Nat) (scale margin : Int)
  | hline (y x1 x2 : Int) (color : Nat) (thickness : Int)
  | dashed (y x1 x2 : Int) (color : Nat) (dashLen gapLen : Int)
  | icon (x y code : Int)
deriving DecidableEq

/-- Pixel-store trace of one primitive call. -/
def cmdWrites (o : ArcOracle) (width : Int) : Cmd → List (Int × Nat)
  | .text x y s color scale => drawText width x y s color scale
  | .centered y s color scale => drawCenteredText width y s color scale
  | .rightAligned y s color scale margin =>
      drawRightAlignedText width y s color scale margin
  | .hline y x1 x2 color thickness => drawHLine width y x1 x2 color thickness
  | .dashed y x1 x2 color dashLen gapLen =>
      drawDashedHLine width y x1 x2 color dashLen gapLen
  | .icon x y code => drawWeatherIcon o width x y code

/-- Inner event loop of `renderDisplay` (index.ts lines 660-692), for one
day.  Arguments mirror the source: `total` is `day.events.length`, the list
argument is the events not yet visited, `eventIndex` the index of its head,
and the `Int` the running `eventY`.  Returns the primitive calls made and
the final `eventY`.  Constants inlined from the source: `MARGIN = 24`,
`eventRowHeight = 45`, `timeColumnWidth = 100`, minimum event height 30. -/
def eventLoop (width maxContentY contentWidth : Int) (isToday : Bool)
    (total : Nat) : List CalendarEvent → Nat → Int → List Cmd × Int
  | [], _, eventY => ([], eventY)
  | event :: rest, eventIndex, eventY =>
    if eventY + 30 > maxContentY then
      -- cut off: show "+N more..." for the remaining events, then break
      let remaining := total - eventIndex
      if remaining > 0 then
        ([.text 24 eventY ("+" ++ toString remaining ++ " more...")
            LIGHT_GRAY 2], eventY + 30)
      else ([], eventY)
    else
      let eventColor := if isToday then INK_BLACK else DARK_GRAY
      let maxTitleWidth := contentWidth - 100 - 10
      let title := truncateTitle maxTitleWidth event.title
      let y1 := eventY + 26
      let dividerCmds : List Cmd :=
        if eventIndex < total - 1 ∧ y1 + 45 ≤ maxContentY then
          [.hline y1 24 (width - 24) LIGHT_GRAY 1]
        else []
      let r := eventLoop width maxContentY contentWidth isToday total rest
        (eventIndex + 1) (y1 + (45 - 26))
      (.text 24 eventY event.time eventColor 2 ::
        .text (24 + 100) eventY title eventColor 2 :: (dividerCmds ++ r.1),
       r.2)

/-- Day loop of `renderDisplay` (index.ts lines 629-693).  The `Nat` is
`dayIndex`, the `Int` the running `eventY`.  Constants inlined from the
source: `dayHeaderHeight = 40`, `eventRowHeight = 45`, `MARGIN = 24`. -/
def dayLoop (width maxContentY contentWidth : Int) :
    List DayEvents → Nat → Int → List Cmd
  | [], _, _ => []
  | day :: rest, dayIndex, eventY =>
    -- space check for header + one event row; `break` drops all later days
    if eventY + (40 + 45) > maxContentY then []
    else
      let isFirstDay := dayIndex = 0
      let isToday := day.label = "TODAY"
      let sepCmds : List Cmd :=
        if isFirstDay then []
        else [.dashed eventY 24 (width - 24) DARK_GRAY 6 4]
      let y0 := if isFirstDay then eventY else eventY + 15
      let labelColor := if isToday then INK_BLACK else DARK_GRAY
      let y1 := y0 + (40 - 5)
      if day.events.length = 0 then
        sepCmds ++ .text 24 y0 day.label labelColor 2 ::
          .text (24 + 100) y1 "No events" LIGHT_GRAY 2 ::
            dayLoop width maxContentY contentWidth rest (dayIndex + 1)
              (y1 + 45)
      else
        let r := eventLoop width maxContentY contentWidth isToday
          day.events.length day.events 0 y1
        sepCmds ++ .text 24 y0 day.label labelColor 2 ::
          (r.1 ++ dayLoop width maxContentY contentWidth rest (dayIndex + 1)
            r.2)

/-- The full sequence of primitive calls made by `renderDisplay`
(index.ts lines 567-712), in program order.  Constants inlined from the
source: `MARGIN = 24`, `FOOTER_HEIGHT = 50`, `weatherSectionHeight = 180`,
`rightX = 240`. -/
def renderCmds (width height : Int) (weather : WeatherData)
    (days : List DayEvents) (generatedAt : DateLike) : List Cmd :=
  let contentWidth := width - 24 * 2
  let maxContentY := height - 50
  let tempStr := toString weather.temperature
  let tempWidth := getTextWidth tempStr 10
  let hiLoStr := "H:" ++ toString weather.temperatureHigh ++ " L:" ++
    toString weather.temperatureLow
  let dateStr := DAY_NAMES.getD generatedAt.getDay "" ++ ", " ++
    monthNames.getD generatedAt.getMonth "" ++ " " ++
    toString generatedAt.getDate
  let footerY := height - 30
  [.text 24 30 tempStr INK_BLACK 10,
   .text (24 + tempWidth) 30 "°" INK_BLACK 4,
   .icon 240 20 weather.conditionCode,
   .text (240 + 56) 28 "BROOKLYN NY" INK_BLACK 2,
   .text (240 + 56) 60 weather.condition DARK_GRAY 2,
   .text (240 + 56) 92 hiLoStr DARK_GRAY 2,
   .hline 180 24 (width - 24) INK_BLACK 3,
   .centered (180 + 20) dateStr INK_BLACK 3,
   .hline (180 + 70) 24 (width - 24) INK_BLACK 2] ++
  dayLoop width maxContentY contentWidth days 0 (180 + 70 + 20) ++
  [.hline (footerY - 10) 24 (width - 24) LIGHT_GRAY 1,
   .rightAligned footerY ("Generated " ++ generatedAt.timeString)
     DARK_GRAY 1 24]

/-- The pixel buffer produced by `renderDisplay` (index.ts lines 567-712): a
`width*height` buffer filled with `PAPER_WHITE`, then mutated by every
primitive call in order. -/
def renderDisplay (o : ArcOracle) (width height : Int)
    (weather : WeatherData) (days : List DayEvents)
    (generatedAt : DateLike) : Buf :=
  applyWrites (width * height)
    ((renderCmds width height weather days generatedAt).flatMap
      (cmdWrites o width))
    (fun _ => PAPER_WHITE)

/-- The JS idiom `parseInt(s) || dflt` used for the canvas dimensions
(index.ts lines 720-721): `none` models a `NaN` parse (missing or
non-numeric input); `0` is falsy and falls back; every other parsed value is
used as-is. -/
def jsOrDefault (parsed : Option Int) (dflt : Int) : Int :=
  match parsed with
  | none => dflt
  | some v => if v = 0 then dflt else v

/-- The canvas dimensions chosen by the `fetch` handler
(index.ts lines 720-721). -/
def handlerDims (parsedWidth parsedHeight : Option Int) : Int × Int :=
  (jsOrDefault parsedWidth 480, jsOrDefault parsedHeight 800)

/-- An output byte array: its allocated length and the byte at each index
(zero-initialized, as `new Uint8Array` is). -/
structure ByteBuf where
  size : Nat
  data : Nat → Nat

/-- One byte store `buffer[i] = v` (every store `createBMP` performs is in
bounds, so no bounds guard is modelled). -/
def bset (b : ByteBuf) (i : Nat) (v : Nat) : ByteBuf :=
  { b with data := fun j => if j = i then v % 256 else b.data j }

/-- Model of `DataView.setUint32(off, v, true)`: the four little-endian bytes of
`v mod 2^32`. -/
def setUint32 (b : ByteBuf) (off : Nat) (v : Int) : ByteBuf :=
  let n := (v % 4294967296).toNat
  bset (bset (bset (bset b off (n % 256)) (off + 1) (n / 256 % 256))
    (off + 2) (n / 65536 % 256)) (off + 3) (n / 16777216 % 256)

/-- Model of `DataView.setInt32(off, v, true)`: it stores exactly the bytes of
`v mod 2^32` (two's complement), the same as `setUint32`. -/
def setInt32 (b : ByteBuf) (off : Nat) (v : Int) : ByteBuf :=
  setUint32 b off v

/-- Model of `DataView.setUint16(off, v, true)`: the two little-endian bytes of
`v mod 2^16`. -/
def setUint16 (b : ByteBuf) (off : Nat) (v : Int) : ByteBuf :=
  let n := (v % 65536).toNat
  bset (bset b off (n % 256)) (off + 1) (n / 256)

/-- Palette loop of `createBMP` (index.ts lines 263-269): entry `i` gets the
four bytes `(i, i, i, 0)` at offset `paletteOffset + i*4`. -/
def paletteLoop (paletteOffset : Nat) (b : ByteBuf) : ByteBuf :=
  (List.range 256).foldl (fun b i =>
    bset (bset (bset (bset b (paletteOffset + i * 4 + 0) i)
      (paletteOffset + i * 4 + 1) i) (paletteOffset + i * 4 + 2) i)
      (paletteOffset + i * 4 + 3) 0) b

/-- Pixel-data loop of `createBMP` (index.ts lines 272-277): row `y`, column
`x` goes to offset `pixelOffset + y * paddedRowSize + x`. -/
def pixelLoop (width height paddedRowSize pixelOffset : Nat)
    (pixelData : Nat → Nat) (b : ByteBuf) : ByteBuf :=
  (List.range height).foldl (fun b y =>
    (List.range width).foldl (fun b x =>
      bset b (pixelOffset + y * paddedRowSize + x) (pixelData (y * width + x)))
      b) b

/-- Embedding of `createBMP` (index.ts lines 232-280).  `Math.ceil(width/4)*4`
on a natural width is `((width + 3) / 4) * 4`. -/
def createBMP (width height : Nat) (pixelData : Nat → Nat) : ByteBuf :=
  let paddedRowSize := ((width + 3) / 4) * 4
  let pixelDataSize := paddedRowSize * height
  let paletteSize := 256 * 4
  let headerSize := 14
  let dibHeaderSize := 40
  let fileSize := headerSize + dibHeaderSize + paletteSize + pixelDataSize
  let b0 : ByteBuf := ⟨fileSize, fun _ => 0⟩
  -- BMP header
  let b1 := bset (bset b0 0 0x42) 1 0x4D
  let b2 := setUint32 b1 2 (fileSize : Int)
  let b3 := setUint32 b2 6 0
  let b4 := setUint32 b3 10 ((headerSize + dibHeaderSize + paletteSize : Nat) : Int)
  -- DIB header
  let b5 := setUint32 b4 14 (dibHeaderSize : Int)
  let b6 := setInt32 b5 18 (width : Int)
  let b7 := setInt32 b6 22 (-(height : Int)) -- negative = top-down
  let b8 := setUint16 b7 26 1
  let b9 := setUint16 b8 28 8 -- 8-bit
  let b10 := setUint32 b9 30 0
  let b11 := setUint32 b10 34 (pixelDataSize : Int)
  let b12 := setInt32 b11 38 2835
  let b13 := setInt32 b12 42 2835
  let b14 := setUint32 b13 46 256
  let b15 := setUint32 b14 50 256
  -- grayscale palette
  let paletteOffset := headerSize + dibHeaderSize
  let b16 := paletteLoop paletteOffset b15
  -- pixel data
  let pixelOffset := headerSize + dibHeaderSize + paletteSize
  pixelLoop width height paddedRowSize pixelOffset pixelData b16

/-- A command is the "+N more..." overflow marker exactly when it is a text
draw at the left margin `x = 24` in `LIGHT_GRAY`: within the agenda trace,
day labels and event times at `x = 24` use `INK_BLACK`/`DARK_GRAY`, and all
other `LIGHT_GRAY` text is drawn at `x = 124`. -/
def isMarkerCmd : Cmd → Bool
  | .text x _ _ color _ => x == 24 && color == LIGHT_GRAY
  | _ => false

/-- Count of painted event rows in an event-loop trace: text draws at the
margin that are not the marker (each painted event draws its time there). -/
def timeCount (cmds : List Cmd) : Nat :=
  (cmds.filter (fun c =>
    match c with
    | .text x _ _ color _ => x == 24 && !(color == LIGHT_GRAY)
    | _ => false)).length

/-- The four grayscale levels the renderer uses. -/
def goodColor (v : Nat) : Prop :=
  v = INK_BLACK ∨ v = DARK_GRAY ∨ v = LIGHT_GRAY ∨ v = PAPER_WHITE

/-- The color argument of a primitive call is one of the four levels (icons
carry no color argument; their stores are checked directly). -/
def cmdColorGood : Cmd → Prop
  | .text _ _ _ color _ => goodColor color
  | .centered _ _ color _ => goodColor color
  | .rightAligned _ _ color _ _ => goodColor color
  | .hline _ _ _ color _ => goodColor color
  | .dashed _ _ _ color _ _ => goodColor color
  | .icon _ _ _ => True

/-- A concrete `ArcOracle` (placing every sample at `⌊c⌋`), used to
instantiate oracle-parametric theorems on closed inputs. -/
def floorOracle : ArcOracle where
  ptX := fun c _ _ => ⌊c⌋
  ptY := fun c _ _ => ⌊c⌋
  ptX_lb := fun c r _ hr => by
    have h1 : (c : ℚ) - 1 < (⌊c⌋ : ℚ) := Int.sub_one_lt_floor c
    linarith
  ptX_ub := fun c r _ hr => by
    have h1 : ((⌊c⌋ : ℚ)) ≤ c := Int.floor_le c
    linarith
  ptY_lb := fun c r _ hr => by
    have h1 : (c : ℚ) - 1 < (⌊c⌋ : ℚ) := Int.sub_one_lt_floor c
    linarith
  ptY_ub := fun c r _ hr => by
    have h1 : ((⌊c⌋ : ℚ)) ≤ c := Int.floor_le c
    linarith

theorem mem_ite_nil {α : Type} {p : Prop} [Decidable p] {l : List α} {a : α} :
    a ∈ (if p then l else []) ↔ p ∧ a ∈ l := by
  split
  · simp [*]
  · simp [*]

theorem mem_intRange {a b x : Int} : x ∈ intRange a b ↔ a ≤ x ∧ x < b := by
  simp only [intRange, List.mem_map, List.mem_range]
  constructor
  · rintro ⟨k, hk, rfl⟩
    omega
  · rintro ⟨h1, h2⟩
    exact ⟨(x - a).toNat, by omega, by omega⟩

theorem applyWrites_append (size : Int) (ws1 ws2 : List (Int × Nat))
    (b : Buf) : applyWrites size (ws1 ++ ws2) b =
      applyWrites size ws2 (applyWrites size ws1 b) := by
  induction ws1 generalizing b with
  | nil => rfl
  | cons iv ws ih => simp [applyWrites, ih]

theorem applyWrite_ne {size : Int} {b : Buf} {i v j} (h : j ≠ i) :
    applyWrite size b i v j = b j := by
  unfold applyWrite
  split
  · simp [h]
  · rfl

theorem applyWrites_not_mem {size : Int} {ws : List (Int × Nat)} {b : Buf}
    {j : Int} (h : ∀ iv ∈ ws, iv.1 ≠ j) : applyWrites size ws b j = b j := by
  induction ws generalizing b with
  | nil => rfl
  | cons iv ws ih =>
    rw [applyWrites, ih (fun iv' h' => h iv' (List.mem_cons_of_mem _ h'))]
    exact applyWrite_ne fun he => h iv (List.mem_cons_self _ _) he.symm

theorem applyWrites_last_value {size : Int} {ws : List (Int × Nat)} {b : Buf}
    {j : Int} {v : Nat} (hmem : (j, v) ∈ ws)
    (huniq : ∀ v', (j, v') ∈ ws → v' = v) (h0 : 0 ≤ j) (hs : j < size) :
    applyWrites size ws b j = v % 256 := by
  induction ws generalizing b with
  | nil => cases hmem
  | cons iv ws ih =>
    by_cases htail : ∃ v', (j, v') ∈ ws
    · obtain ⟨v', hv'⟩ := htail
      have hveq : v' = v := huniq v' (List.mem_cons_of_mem _ hv')
      subst hveq
      exact ih hv' (fun v'' h'' => huniq v'' (List.mem_cons_of_mem _ h''))
    · have hhead : iv = (j, v) := by
        rcases List.mem_cons.mp hmem with h | h
        · exact h.symm
        · exact absurd ⟨v, h⟩ htail
      subst hhead
      rw [applyWrites,
        applyWrites_not_mem (fun iv' h' he => htail ⟨iv'.2, by
          have h2 : iv' = (j, iv'.2) := Prod.ext he rfl
          rwa [h2] at h'⟩)]
      simp [applyWrite, h0, hs]

theorem applyWrites_preserve {P : Nat → Prop} {size : Int}
    {ws : List (Int × Nat)} {b : Buf}
    (hws : ∀ iv ∈ ws, P (iv.2 % 256)) (hb : ∀ j, P (b j)) :
    ∀ j, P (applyWrites size ws b j) := by
  induction ws generalizing b with
  | nil => exact hb
  | cons iv ws ih =>
    intro j
    rw [applyWrites]
    refine ih (fun iv' h' => hws iv' (List.mem_cons_of_mem _ h')) (fun j' => ?_) j
    unfold applyWrite
    split
    · dsimp only
      split
      · exact hws iv (List.mem_cons_self _ _)
      · exact hb j'
    · exact hb j'

theorem rowcol_nonneg {py px W : Int} (hpy : 0 ≤ py) (hpx : 0 ≤ px)
    (hW : 0 ≤ W) : 0 ≤ py * W + px := by positivity

theorem rowcol_lt {py px W R : Int} (hpx0 : 0 ≤ px) (hpxW : px < W)
    (hpy : py ≤ R) : py * W + px < (R + 1) * W := by nlinarith

theorem rowcol_ge {py px W R0 : Int} (h : R0 ≤ py) (hpx : 0 ≤ px)
    (hW : 0 ≤ W) : R0 * W ≤ py * W + px := by nlinarith

theorem jsRound_le (q : ℚ) : (jsRound q : ℚ) ≤ q + 1/2 := Int.floor_le _

theorem jsRound_ge (q : ℚ) : q - 1/2 ≤ (jsRound q : ℚ) := by
  have h := Int.lt_floor_add_one (q + 1/2)
  unfold jsRound
  push_cast at h ⊢
  linarith

theorem interpRound_bounds {a b : Int} {t : Nat} (ht : t ≤ 10) :
    min a b ≤ interpRound a b t ∧ interpRound a b t ≤ max a b := by
  have h0 : (0 : ℚ) ≤ (t : ℚ) := by positivity
  have h10 : (t : ℚ) ≤ 10 := by exact_mod_cast ht
  have hlo : ((min a b : Int) : ℚ) ≤
      (a : ℚ) + ((b : ℚ) - (a : ℚ)) * (t : ℚ) / 10 := by
    rcases le_total a b with hab | hab
    · rw [min_eq_left hab]
      have : ((a : Int) : ℚ) ≤ (b : Int) := by exact_mod_cast hab
      nlinarith
    · rw [min_eq_right hab]
      have : ((b : Int) : ℚ) ≤ (a : Int) := by exact_mod_cast hab
      nlinarith
  have hhi : (a : ℚ) + ((b : ℚ) - (a : ℚ)) * (t : ℚ) / 10 ≤
      ((max a b : Int) : ℚ) := by
    rcases le_total a b with hab | hab
    · rw [max_eq_right hab]
      have : ((a : Int) : ℚ) ≤ (b : Int) := by exact_mod_cast hab
      nlinarith
    · rw [max_eq_left hab]
      have : ((b : Int) : ℚ) ≤ (a : Int) := by exact_mod_cast hab
      nlinarith
  constructor
  · rw [interpRound, jsRound]
    rw [Int.le_floor]
    push_cast at hlo ⊢
    linarith
  · rw [interpRound, jsRound]
    rw [← Int.lt_add_one_iff, Int.floor_lt]
    push_cast at hhi ⊢
    linarith

theorem drawChar_mem {width x y : Int} {char : Char} {color : Nat}
    {scale : Int} {iv : Int × Nat}
    (h : iv ∈ drawChar width x y char color scale) :
    iv.2 = color ∧ ∃ px py : Int, iv.1 = py * width + px ∧ 0 ≤ px ∧
      px < width ∧ 0 ≤ py ∧ y ≤ py ∧ py ≤ y + 8 * scale - 1 := by
  unfold drawChar at h
  rcases hf : FONT_DATA char with _ | data
  · rw [hf] at h
    cases h
  · rw [hf] at h
    obtain ⟨row, hrow, h⟩ := List.mem_flatMap.mp h
    obtain ⟨col, hcol, h⟩ := List.mem_flatMap.mp h
    rw [mem_ite_nil] at h
    obtain ⟨-, h⟩ := h
    obtain ⟨sy, hsy, h⟩ := List.mem_flatMap.mp h
    obtain ⟨sx, hsx, h⟩ := List.mem_flatMap.mp h
    rw [mem_ite_nil] at h
    obtain ⟨⟨hpx0, hpxw, hpy0⟩, h⟩ := h
    rw [List.mem_singleton] at h
    subst h
    rw [mem_intRange] at hsy hsx
    rw [List.mem_range] at hrow
    have hs1 : (1 : Int) ≤ scale := by omega
    have hr0 : (0 : Int) ≤ (row : Int) * scale :=
      mul_nonneg (by positivity) (by omega)
    have hr7 : (row : Int) * scale ≤ 7 * scale := by
      have h7 : (row : Int) ≤ 7 := by exact_mod_cast Nat.lt_succ_iff.mp hrow
      exact mul_le_mul_of_nonneg_right h7 (by omega)
    exact ⟨rfl, x + (col : Int) * scale + sx, y + (row : Int) * scale + sy,
      rfl, hpx0, hpxw, hpy0, by omega, by omega⟩

theorem drawTextAux_mem {width y : Int} {color : Nat} {scale : Int}
    {cs : List Char} {cx : Int} {iv : Int × Nat}
    (h : iv ∈ drawTextAux width y color scale cs cx) :
    iv.2 = color ∧ ∃ px py : Int, iv.1 = py * width + px ∧ 0 ≤ px ∧
      px < width ∧ 0 ≤ py ∧ y ≤ py ∧ py ≤ y + 8 * scale - 1 := by
  induction cs generalizing cx with
  | nil => cases h
  | cons c cs ih =>
    rw [drawTextAux] at h
    rcases List.mem_append.mp h with h | h
    · exact drawChar_mem h
    · exact ih h

theorem drawText_mem {width x y : Int} {s : String} {color : Nat}
    {scale : Int} {iv : Int × Nat}
    (h : iv ∈ drawText width x y s color scale) :
    iv.2 = color ∧ ∃ px py : Int, iv.1 = py * width + px ∧ 0 ≤ px ∧
      px < width ∧ 0 ≤ py ∧ y ≤ py ∧ py ≤ y + 8 * scale - 1 :=
  drawTextAux_mem h

theorem fillRect_mem {width height x y w h : Int} {color : Nat}
    {iv : Int × Nat} (hm : iv ∈ fillRect width height x y w h color) :
    iv.2 = color ∧ ∃ px py : Int, iv.1 = py * width + px ∧ 0 ≤ px ∧
      px < width ∧ x ≤ px ∧ 0 ≤ py ∧ y ≤ py ∧ py < y + h ∧ py < height := by
  unfold fillRect at hm
  obtain ⟨py, hpy, hm⟩ := List.mem_flatMap.mp hm
  obtain ⟨px, hpx, hm⟩ := List.mem_flatMap.mp hm
  rw [mem_ite_nil] at hm
  obtain ⟨⟨hpx0, hpy0⟩, hm⟩ := hm
  rw [List.mem_singleton] at hm
  subst hm
  rw [mem_intRange] at hpy hpx
  exact ⟨rfl, px, py, rfl, hpx0, by omega, by omega, hpy0, by omega, by omega,
    by omega⟩

theorem fillRect_mem_mk {width height x y w h : Int} {color : Nat}
    {px py : Int} (hpy1 : y ≤ py) (hpy2 : py < y + h) (hpy3 : py < height)
    (hpx1 : x ≤ px) (hpx2 : px < x + w) (hpx3 : px < width)
    (hpx0 : 0 ≤ px) (hpy0 : 0 ≤ py) :
    (py * width + px, color) ∈ fillRect width height x y w h color := by
  unfold fillRect
  refine List.mem_flatMap.mpr ⟨py, mem_intRange.mpr ⟨hpy1, by omega⟩, ?_⟩
  refine List.mem_flatMap.mpr ⟨px, mem_intRange.mpr ⟨hpx1, by omega⟩, ?_⟩
  rw [mem_ite_nil]
  exact ⟨⟨hpx0, hpy0⟩, List.mem_singleton.mpr rfl⟩

theorem dashedLoop_value {width y : Int} {color : Nat} {dl gl x2 : Int}
    {fuel : Nat} {x : Int} {drawing : Bool} {iv : Int × Nat}
    (h : iv ∈ dashedLoop width y color dl gl x2 fuel x drawing) :
    iv.2 = color := by
  induction fuel generalizing x drawing with
  | zero => cases h
  | succ fuel ih =>
    rw [dashedLoop] at h
    split at h
    · split at h
      · rcases List.mem_append.mp h with h | h
        · obtain ⟨px, -, h⟩ := List.mem_map.mp h
          rw [← h]
        · exact ih h
      · exact ih h
    · cases h

theorem drawDashedHLine_value {width y x1 x2 : Int} {color : Nat}
    {dl gl : Int} {iv : Int × Nat}
    (h : iv ∈ drawDashedHLine width y x1 x2 color dl gl) : iv.2 = color :=
  dashedLoop_value h

theorem int_cast_le {p q : Int} (h : (p : ℚ) ≤ (q : ℚ)) : p ≤ q := by
  exact_mod_cast h


theorem drawCloudShape_mem {o : ArcOracle} {width x y w h : Int}
    {iv : Int × Nat} (hm : iv ∈ drawCloudShape o width x y w h)
    (hh : 0 ≤ h) :
    iv.2 = INK_BLACK ∧ ∃ px py : Int, iv.1 = py * width + px ∧ 0 ≤ px ∧
      px < width ∧ 0 ≤ py ∧ py ≤ y + h + 1 := by
  have hhq : (0 : ℚ) ≤ (h : ℚ) := by exact_mod_cast hh
  simp only [drawCloudShape, List.mem_append, List.mem_flatMap,
    List.mem_map, List.mem_range, mem_ite_nil, List.mem_singleton] at hm
  rcases hm with ⟨angle, -, (⟨⟨hpx0, hpxw, hpy0⟩, rfl⟩ |
      ⟨⟨hpx0, hpxw, hpy0⟩, rfl⟩) | ⟨⟨hpx0, hpxw, hpy0⟩, rfl⟩⟩ | hm
  · refine ⟨rfl, _, _, rfl, hpx0, hpxw, hpy0, ?_⟩
    have hub := o.ptY_ub ((y : ℚ) + (h : ℚ) * (4/10)) ((h : ℚ) * (4/10))
      angle (by positivity)
    refine int_cast_le ?_
    push_cast
    linarith
  · refine ⟨rfl, _, _, rfl, hpx0, hpxw, hpy0, ?_⟩
    have hub := o.ptY_ub ((y : ℚ) + (h : ℚ) * (3/10)) ((h : ℚ) * (5/10))
      angle (by positivity)
    refine int_cast_le ?_
    push_cast
    linarith
  · refine ⟨rfl, _, _, rfl, hpx0, hpxw, hpy0, ?_⟩
    have hub := o.ptY_ub ((y : ℚ) + (h : ℚ) * (5/10)) ((h : ℚ) * (35/100))
      angle (by positivity)
    refine int_cast_le ?_
    push_cast
    linarith
  · obtain ⟨hv, px, py, hi, hpx0, hpxw, -, hpy0, hpy1, hpy2, -⟩ :=
      fillRect_mem hm
    refine ⟨hv, px, py, hi, hpx0, hpxw, hpy0, ?_⟩
    have h1 : (jsRound ((y : ℚ) + (h : ℚ) * (3/4)) : ℚ) ≤
        (y : ℚ) + (h : ℚ) * (3/4) + 1/2 := jsRound_le _
    have h2 : jsRound ((y : ℚ) + (h : ℚ) * (3/4)) ≤ y + h + 1 := by
      refine int_cast_le ?_
      push_cast
      linarith
    omega

theorem sunIcon_mem {o : ArcOracle} {width x y : Int} {iv : Int × Nat}
    (hm : iv ∈ sunIcon o width x y) :
    iv.2 = INK_BLACK ∧ (0 ≤ y → ∃ px py : Int, iv.1 = py * width + px ∧
      0 ≤ px ∧ px < width ∧ 0 ≤ py ∧ py ≤ y + 49) := by
  simp only [sunIcon, List.mem_append, List.mem_flatMap, List.mem_map,
    List.mem_range, mem_ite_nil, List.mem_singleton,
    show (48 : Int) / 2 = 24 from by norm_num] at hm
  rcases hm with ⟨angle, -, ⟨hpx0, hpxw⟩, rfl⟩ |
    ⟨i, -, t, ht, ⟨hpx0, hpxw, hpy0⟩, rfl⟩
  · refine ⟨rfl, fun hy => ⟨_, _, rfl, hpx0, hpxw, ?_, ?_⟩⟩
    · have hlb := o.ptY_lb ((y + 24 : Int) : ℚ) 14 angle (by norm_num)
      have : (y + 24 : Int) - 14 - 1 ≤ o.ptY ((y + 24 : Int) : ℚ) 14 angle := by
        refine int_cast_le ?_
        push_cast at hlb ⊢
        linarith
      omega
    · have hub := o.ptY_ub ((y + 24 : Int) : ℚ) 14 angle (by norm_num)
      have : o.ptY ((y + 24 : Int) : ℚ) 14 angle ≤ (y + 24 : Int) + 14 + 1 := by
        refine int_cast_le ?_
        push_cast at hub ⊢
        linarith
      omega
  · refine ⟨rfl, fun hy => ⟨_, _, rfl, hpx0, hpxw, hpy0, ?_⟩⟩
    have hb := interpRound_bounds (a := o.ptY ((y + 24 : Int) : ℚ) (14 + 4)
      (45 * (i : Int))) (b := o.ptY ((y + 24 : Int) : ℚ) (14 + 10)
      (45 * (i : Int))) (t := t) (by omega)
    have hub1 := o.ptY_ub ((y + 24 : Int) : ℚ) (14 + 4) (45 * (i : Int))
      (by norm_num)
    have hub2 := o.ptY_ub ((y + 24 : Int) : ℚ) (14 + 10) (45 * (i : Int))
      (by norm_num)
    have h1 : o.ptY ((y + 24 : Int) : ℚ) (14 + 4) (45 * (i : Int)) ≤
        y + 24 + 14 + 4 + 1 := by
      refine int_cast_le ?_
      push_cast at hub1 ⊢
      linarith
    have h2 : o.ptY ((y + 24 : Int) : ℚ) (14 + 10) (45 * (i : Int)) ≤
        y + 24 + 14 + 10 + 1 := by
      refine int_cast_le ?_
      push_cast at hub2 ⊢
      linarith
    rcases hb with ⟨-, hb2⟩
    have hmax : max (o.ptY ((y + 24 : Int) : ℚ) (14 + 4) (45 * (i : Int)))
        (o.ptY ((y + 24 : Int) : ℚ) (14 + 10) (45 * (i : Int))) ≤ y + 49 :=
      max_le (by omega) (by omega)
    omega

theorem fogIcon_mem {width x y : Int} {iv : Int × Nat}
    (hm : iv ∈ fogIcon width x y) :
    iv.2 = DARK_GRAY ∧ ∃ px py : Int, iv.1 = py * width + px ∧ 0 ≤ px ∧
      px < width ∧ 0 ≤ py ∧ py ≤ y + 49 := by
  simp only [fogIcon, List.mem_flatMap, List.mem_range] at hm
  obtain ⟨i, hi, hm⟩ := hm
  obtain ⟨hv, px, py, hidx, hpx0, hpxw, -, hpy0, hpy1, hpy2, -⟩ :=
    fillRect_mem hm
  exact ⟨hv, px, py, hidx, hpx0, hpxw, hpy0, by omega⟩

theorem rainIcon_mem {o : ArcOracle} {width x y : Int} {iv : Int × Nat}
    (hm : iv ∈ rainIcon o width x y) :
    iv.2 = INK_BLACK ∧ (0 ≤ x → 0 ≤ y → x + 48 ≤ width →
      ∃ px py : Int, iv.1 = py * width + px ∧ 0 ≤ px ∧ px < width ∧
        0 ≤ py ∧ py ≤ y + 49) := by
  rcases List.mem_append.mp hm with hc | hd
  · obtain ⟨hv, px, py, hidx, hpx0, hpxw, hpy0, hpyb⟩ :=
      drawCloudShape_mem hc (by norm_num)
    exact ⟨hv, fun _ _ _ => ⟨px, py, hidx, hpx0, hpxw, hpy0, by omega⟩⟩
  · simp only [List.mem_flatMap, List.mem_range, List.mem_map] at hd
    obtain ⟨i, hi, j, hj, rfl⟩ := hd
    refine ⟨rfl, fun hx hy hw => ⟨x + 14 + (i : Int) * 10,
      y + 32 + (j : Int), rfl, by omega, by omega, by omega, by omega⟩⟩

theorem snowIcon_mem {o : ArcOracle} {width x y : Int} {iv : Int × Nat}
    (hm : iv ∈ snowIcon o width x y) :
    iv.2 = INK_BLACK ∧ (0 ≤ x → 0 ≤ y → x + 48 ≤ width →
      ∃ px py : Int, iv.1 = py * width + px ∧ 0 ≤ px ∧ px < width ∧
        0 ≤ py ∧ py ≤ y + 49) := by
  rcases List.mem_append.mp hm with hc | hd
  · obtain ⟨hv, px, py, hidx, hpx0, hpxw, hpy0, hpyb⟩ :=
      drawCloudShape_mem hc (by norm_num)
    exact ⟨hv, fun _ _ _ => ⟨px, py, hidx, hpx0, hpxw, hpy0, by omega⟩⟩
  · simp only [List.mem_flatMap, List.mem_range, List.mem_cons,
      List.mem_singleton, List.not_mem_nil, or_false] at hd
    obtain ⟨i, hi, hd⟩ := hd
    rcases hd with rfl | rfl | rfl | rfl | rfl
    · exact ⟨rfl, fun hx hy hw => ⟨x + 14 + (i : Int) * 10, y + 36, rfl,
        by omega, by omega, by omega, by omega⟩⟩
    · exact ⟨rfl, fun hx hy hw => ⟨x + 14 + (i : Int) * 10, y + 36 - 2, rfl,
        by omega, by omega, by omega, by omega⟩⟩
    · exact ⟨rfl, fun hx hy hw => ⟨x + 14 + (i : Int) * 10, y + 36 + 2, rfl,
        by omega, by omega, by omega, by omega⟩⟩
    · exact ⟨rfl, fun hx hy hw => ⟨x + 14 + (i : Int) * 10 - 2, y + 36,
        by ring, by omega, by omega, by omega, by omega⟩⟩
    · exact ⟨rfl, fun hx hy hw => ⟨x + 14 + (i : Int) * 10 + 2, y + 36,
        by ring, by omega, by omega, by omega, by omega⟩⟩

theorem thunderIcon_mem {o : ArcOracle} {width x y : Int} {iv : Int × Nat}
    (hm : iv ∈ thunderIcon o width x y) :
    iv.2 = INK_BLACK ∧ (0 ≤ x → 0 ≤ y → x + 48 ≤ width →
      ∃ px py : Int, iv.1 = py * width + px ∧ 0 ≤ px ∧ px < width ∧
        0 ≤ py ∧ py ≤ y + 49) := by
  rcases List.mem_append.mp hm with hc | hd
  · obtain ⟨hv, px, py, hidx, hpx0, hpxw, hpy0, hpyb⟩ :=
      drawCloudShape_mem hc (by norm_num)
    exact ⟨hv, fun _ _ _ => ⟨px, py, hidx, hpx0, hpxw, hpy0, by omega⟩⟩
  · simp only [List.mem_flatMap, List.mem_range, List.mem_cons,
      List.mem_singleton, List.not_mem_nil, or_false] at hd
    obtain ⟨i, hi, hd⟩ := hd
    have hb1 : x + 18 ≤ x + 24 + (if i < 6 then -(i : Int) else (i : Int) - 12)
        := by split <;> omega
    have hb2 : x + 24 + (if i < 6 then -(i : Int) else (i : Int) - 12) ≤
        x + 24 := by split <;> omega
    rcases hd with rfl | rfl
    · exact ⟨rfl, fun hx hy hw =>
        ⟨x + 24 + (if i < 6 then -(i : Int) else (i : Int) - 12),
         y + 24 + (i : Int) * 2, rfl, by omega, by omega, by omega, by omega⟩⟩
    · exact ⟨rfl, fun hx hy hw =>
        ⟨x + 24 + (if i < 6 then -(i : Int) else (i : Int) - 12) + 1,
         y + 24 + (i : Int) * 2, by ring, by omega, by omega, by omega,
         by omega⟩⟩

theorem unknownIcon_mem {width x y : Int} {iv : Int × Nat}
    (hm : iv ∈ unknownIcon width x y) :
    iv.2 = INK_BLACK ∧ ∃ px py : Int, iv.1 = py * width + px ∧ 0 ≤ px ∧
      px < width ∧ 0 ≤ py ∧ py ≤ y + 49 := by
  obtain ⟨hv, px, py, hidx, hpx0, hpxw, hpy0, hpy1, hpy2⟩ := drawText_mem hm
  exact ⟨hv, px, py, hidx, hpx0, hpxw, hpy0, by omega⟩

theorem drawWeatherIcon_mem {o : ArcOracle} {width x y code : Int}
    {iv : Int × Nat} (hm : iv ∈ drawWeatherIcon o width x y code) :
    (iv.2 = INK_BLACK ∨ iv.2 = DARK_GRAY) ∧
      (0 ≤ x → 0 ≤ y → x + 48 ≤ width →
        ∃ px py : Int, iv.1 = py * width + px ∧ 0 ≤ px ∧ px < width ∧
          0 ≤ py ∧ py ≤ y + 49) := by
  unfold drawWeatherIcon at hm
  split at hm
  · obtain ⟨hv, hw⟩ := sunIcon_mem hm
    exact ⟨Or.inl hv, fun _ hy _ => hw hy⟩
  · split at hm
    · obtain ⟨hv, px, py, hidx, hpx0, hpxw, hpy0, hpyb⟩ :=
        drawCloudShape_mem hm (by norm_num)
      exact ⟨Or.inl hv, fun _ _ _ => ⟨px, py, hidx, hpx0, hpxw, hpy0,
        by omega⟩⟩
    · split at hm
      · obtain ⟨hv, px, py, hidx, hpx0, hpxw, hpy0, hpyb⟩ := fogIcon_mem hm
        exact ⟨Or.inr hv, fun _ _ _ => ⟨px, py, hidx, hpx0, hpxw, hpy0,
          hpyb⟩⟩
      · split at hm
        · obtain ⟨hv, hw⟩ := rainIcon_mem hm
          exact ⟨Or.inl hv, hw⟩
        · split at hm
          · obtain ⟨hv, hw⟩ := snowIcon_mem hm
            exact ⟨Or.inl hv, hw⟩
          · split at hm
            · obtain ⟨hv, hw⟩ := thunderIcon_mem hm
              exact ⟨Or.inl hv, hw⟩
            · obtain ⟨hv, px, py, hidx, hpx0, hpxw, hpy0, hpyb⟩ :=
                unknownIcon_mem hm
              exact ⟨Or.inl hv, fun _ _ _ => ⟨px, py, hidx, hpx0, hpxw,
                hpy0, hpyb⟩⟩

theorem bset_size (b : ByteBuf) (i v : Nat) : (bset b i v).size = b.size :=
  rfl

theorem bset_data_eq (b : ByteBuf) (i v : Nat) :
    (bset b i v).data i = v % 256 := by
  simp [bset]

theorem bset_data_ne {b : ByteBuf} {i v j : Nat} (h : j ≠ i) :
    (bset b i v).data j = b.data j := by
  simp [bset, h]

theorem foldl_size {α : Type} (l : List α) (f : ByteBuf → α → ByteBuf)
    (hf : ∀ b a, (f b a).size = b.size) (b : ByteBuf) :
    (l.foldl f b).size = b.size := by
  induction l generalizing b with
  | nil => rfl
  | cons a l ih => rw [List.foldl_cons, ih, hf]

theorem foldl_data_frame {α : Type} (l : List α) (f : ByteBuf → α → ByteBuf)
    (j : Nat) (hf : ∀ b a, a ∈ l → (f b a).data j = b.data j) (b : ByteBuf) :
    (l.foldl f b).data j = b.data j := by
  induction l generalizing b with
  | nil => rfl
  | cons a l ih =>
    rw [List.foldl_cons,
      ih (fun b' a' ha' => hf b' a' (List.mem_cons_of_mem _ ha')),
      hf _ _ (List.mem_cons_self _ _)]

theorem paletteLoop_size (po : Nat) (b : ByteBuf) :
    (paletteLoop po b).size = b.size := by
  unfold paletteLoop
  refine foldl_size _ _ (fun b' i => ?_) b
  dsimp only
  rw [bset_size, bset_size, bset_size, bset_size]

theorem pixelLoop_size (width height prs po : Nat) (p : Nat → Nat)
    (b : ByteBuf) : (pixelLoop width height prs po p b).size = b.size := by
  unfold pixelLoop
  refine foldl_size _ _ (fun b' y => ?_) b
  dsimp only
  refine foldl_size _ _ (fun b'' x => ?_) b'
  dsimp only
  rw [bset_size]

theorem paletteLoop_frame {po : Nat} {b : ByteBuf} {j : Nat} (hj : j < po) :
    (paletteLoop po b).data j = b.data j := by
  unfold paletteLoop
  refine foldl_data_frame _ _ _ (fun b' i _ => ?_) b
  rw [bset_data_ne (by omega), bset_data_ne (by omega),
    bset_data_ne (by omega), bset_data_ne (by omega)]

theorem pixelLoop_frame {width height prs po : Nat} {p : Nat → Nat}
    {b : ByteBuf} {j : Nat} (hj : j < po) :
    (pixelLoop width height prs po p b).data j = b.data j := by
  unfold pixelLoop
  refine foldl_data_frame _ _ _ (fun b' y _ => ?_) b
  refine foldl_data_frame _ _ _ (fun b'' x _ => ?_) b'
  exact bset_data_ne (by omega)

theorem paletteLoop_data {po : Nat} (b : ByteBuf) {i : Nat} (hi : i < 256) :
    (paletteLoop po b).data (po + i * 4) = i ∧
    (paletteLoop po b).data (po + i * 4 + 1) = i ∧
    (paletteLoop po b).data (po + i * 4 + 2) = i ∧
    (paletteLoop po b).data (po + i * 4 + 3) = 0 := by
  unfold paletteLoop
  have hsplit : (256 : Nat) = (i + 1) + (255 - i) := by omega
  rw [hsplit, List.range_add, List.foldl_append, List.range_succ,
    List.foldl_append]
  have hframe : ∀ (k : Nat), k < 4 →
      (((List.range (255 - i)).map (fun j => i + 1 + j)).foldl
        (fun b ii => bset (bset (bset (bset b (po + ii * 4 + 0) ii)
          (po + ii * 4 + 1) ii) (po + ii * 4 + 2) ii)
          (po + ii * 4 + 3) 0) ([i].foldl (fun b ii =>
            bset (bset (bset (bset b (po + ii * 4 + 0) ii)
              (po + ii * 4 + 1) ii) (po + ii * 4 + 2) ii)
              (po + ii * 4 + 3) 0) ((List.range i).foldl (fun b ii =>
                bset (bset (bset (bset b (po + ii * 4 + 0) ii)
                  (po + ii * 4 + 1) ii) (po + ii * 4 + 2) ii)
                  (po + ii * 4 + 3) 0) b))).data (po + i * 4 + k) =
      ([i].foldl (fun b ii => bset (bset (bset (bset b (po + ii * 4 + 0) ii)
        (po + ii * 4 + 1) ii) (po + ii * 4 + 2) ii)
        (po + ii * 4 + 3) 0) ((List.range i).foldl (fun b ii =>
          bset (bset (bset (bset b (po + ii * 4 + 0) ii)
            (po + ii * 4 + 1) ii) (po + ii * 4 + 2) ii)
            (po + ii * 4 + 3) 0) b)).data (po + i * 4 + k) := by
    intro k hk
    refine foldl_data_frame _ _ _ (fun b' a ha => ?_) _
    obtain ⟨k', -, rfl⟩ := List.mem_map.mp ha
    rw [bset_data_ne (by omega), bset_data_ne (by omega),
      bset_data_ne (by omega), bset_data_ne (by omega)]
  refine ⟨?_, ?_, ?_, ?_⟩
  · have h0 := hframe 0 (by omega)
    simp only [Nat.add_zero] at h0 ⊢
    rw [h0]
    simp only [List.foldl_cons, List.foldl_nil]
    rw [bset_data_ne (by omega), bset_data_ne (by omega),
      bset_data_ne (by omega)]
    have := bset_data_eq ((List.range i).foldl (fun b ii =>
      bset (bset (bset (bset b (po + ii * 4 + 0) ii)
        (po + ii * 4 + 1) ii) (po + ii * 4 + 2) ii)
        (po + ii * 4 + 3) 0) b) (po + i * 4 + 0) i
    simp only [Nat.add_zero] at this
    rw [this]
    exact Nat.mod_eq_of_lt hi
  · rw [hframe 1 (by omega)]
    simp only [List.foldl_cons, List.foldl_nil]
    rw [bset_data_ne (by omega), bset_data_ne (by omega), bset_data_eq]
    exact Nat.mod_eq_of_lt hi
  · rw [hframe 2 (by omega)]
    simp only [List.foldl_cons, List.foldl_nil]
    rw [bset_data_ne (by omega), bset_data_eq]
    exact Nat.mod_eq_of_lt hi
  · rw [hframe 3 (by omega)]
    simp only [List.foldl_cons, List.foldl_nil]
    rw [bset_data_eq]

set_option maxHeartbeats 1000000 in
/-- C3: for every width `w`, height `h`, and pixel array, `createBMP`
produces exactly `14 + 40 + 256*4 + (ceil(w/4)*4)*h` bytes; the info-header
height field (offsets 22-25, little-endian) holds the 32-bit two's
complement encoding of `-h`; bits-per-pixel (offset 28) is 8; compression
(offsets 30-33) is 0; and palette entry `i` is the four bytes
`(i, i, i, 0)` for every `i < 256`. -/
theorem c3_createBMP_layout (width height : Nat) (pixelData : Nat → Nat) :
    (createBMP width height pixelData).size =
      14 + 40 + 256 * 4 + (((width + 3) / 4) * 4) * height ∧
    ((createBMP width height pixelData).data 22 +
      256 * (createBMP width height pixelData).data 23 +
      65536 * (createBMP width height pixelData).data 24 +
      16777216 * (createBMP width height pixelData).data 25) =
      ((-(height : Int)) % 4294967296).toNat ∧
    (createBMP width height pixelData).data 28 = 8 ∧
    (createBMP width height pixelData).data 29 = 0 ∧
    ((createBMP width height pixelData).data 30 = 0 ∧
     (createBMP width height pixelData).data 31 = 0 ∧
     (createBMP width height pixelData).data 32 = 0 ∧
     (createBMP width height pixelData).data 33 = 0) ∧
    (∀ i : Nat, i < 256 →
      (createBMP width height pixelData).data (54 + i * 4) = i ∧
      (createBMP width height pixelData).data (54 + i * 4 + 1) = i ∧
      (createBMP width height pixelData).data (54 + i * 4 + 2) = i ∧
      (createBMP width height pixelData).data (54 + i * 4 + 3) = 0) := by
  refine ⟨?_, ?_, ?_, ?_, ?_, ?_⟩
  · simp only [createBMP]
    rw [pixelLoop_size, paletteLoop_size]
    simp only [setInt32, setUint32, setUint16, bset_size]
  · simp only [createBMP]
    rw [pixelLoop_frame (by norm_num), pixelLoop_frame (by norm_num),
      pixelLoop_frame (by norm_num), pixelLoop_frame (by norm_num),
      paletteLoop_frame (by norm_num), paletteLoop_frame (by norm_num),
      paletteLoop_frame (by norm_num), paletteLoop_frame (by norm_num)]
    simp only [setInt32, setUint32, setUint16, bset]
    norm_num
    omega
  · simp only [createBMP]
    rw [pixelLoop_frame (by norm_num), paletteLoop_frame (by norm_num)]
    simp only [setInt32, setUint32, setUint16, bset]
    norm_num
    try omega
  · simp only [createBMP]
    rw [pixelLoop_frame (by norm_num), paletteLoop_frame (by norm_num)]
    simp only [setInt32, setUint32, setUint16, bset]
    norm_num
    try omega
  · refine ⟨?_, ?_, ?_, ?_⟩
    · simp only [createBMP]
      rw [pixelLoop_frame (by norm_num), paletteLoop_frame (by norm_num)]
      simp only [setInt32, setUint32, setUint16, bset]
      norm_num
      try omega
    · simp only [createBMP]
      rw [pixelLoop_frame (by norm_num), paletteLoop_frame (by norm_num)]
      simp only [setInt32, setUint32, setUint16, bset]
      norm_num
      try omega
    · simp only [createBMP]
      rw [pixelLoop_frame (by norm_num), paletteLoop_frame (by norm_num)]
      simp only [setInt32, setUint32, setUint16, bset]
      norm_num
      try omega
    · simp only [createBMP]
      rw [pixelLoop_frame (by norm_num), paletteLoop_frame (by norm_num)]
      simp only [setInt32, setUint32, setUint16, bset]
      norm_num
      try omega
  · intro i hi
    refine ⟨?_, ?_, ?_, ?_⟩
    · simp only [createBMP]
      rw [pixelLoop_frame (by omega)]
      norm_num
      exact (paletteLoop_data _ hi).1
    · simp only [createBMP]
      rw [pixelLoop_frame (by omega)]
      norm_num
      exact (paletteLoop_data _ hi).2.1
    · simp only [createBMP]
      rw [pixelLoop_frame (by omega)]
      norm_num
      exact (paletteLoop_data _ hi).2.2.1
    · simp only [createBMP]
      rw [pixelLoop_frame (by omega)]
      norm_num
      exact (paletteLoop_data _ hi).2.2.2

theorem drawTextAux_append (width y : Int) (color : Nat) (scale : Int)
    (cs1 cs2 : List Char) : ∀ cx : Int,
    drawTextAux width y color scale (cs1 ++ cs2) cx =
      drawTextAux width y color scale cs1 cx ++
        drawTextAux width y color scale cs2
          (cx + 8 * scale * (cs1.length : Int)) := by
  induction cs1 with
  | nil =>
    intro cx
    simp [drawTextAux]
  | cons c cs ih =>
    intro cx
    simp only [List.cons_append, drawTextAux, List.length_cons,
      List.append_eq]
    rw [ih, List.append_assoc]
    congr 2
    push_cast
    ring_nf

/-- C5: `getTextWidth` is exactly `len * 8 * scale`, and drawing a string
stamps each character `8 * scale` columns after the previous one: pushing
one more character onto `text` appends exactly one glyph stamp at
`x + getTextWidth text scale`, so a string of length `n` occupies the
`8 * scale * n` columns starting at `x`. -/
theorem c5_text_width_advance :
    (∀ (text : String) (scale : Int),
      getTextWidth text scale = (text.length : Int) * 8 * scale) ∧
    (∀ (width x y : Int) (text : String) (c : Char) (color : Nat)
      (scale : Int),
      drawText width x y (text.push c) color scale =
        drawText width x y text color scale ++
          drawChar width (x + getTextWidth text scale) y c color scale) := by
  refine ⟨fun text scale => rfl,
    fun width x y text c color scale => ?_⟩
  unfold drawText
  have hdata : (text.push c).data = text.data ++ [c] := String.data_push ..
  rw [hdata, drawTextAux_append]
  simp only [drawTextAux, List.append_nil]
  congr 2
  have hl : text.length = text.data.length := rfl
  simp only [getTextWidth, hl]
  ring

/-- C6 counterexample: a configured width that parses to the negative value
`-5` (and height `-1`) is passed through unchanged, not replaced by the
480×800 defaults, contradicting the claim for negative inputs. -/
theorem c6_counterexample : handlerDims (some (-5)) (some (-1)) ≠ (480, 800)
    := by decide

/-- C6 (amended): a missing/unparsable dimension (`parseInt` giving `NaN`)
or a parsed `0` falls back to the default (480×800 when nothing is
configured), but any nonzero parsed value — including negative ones — is
used as-is; negative configured dimensions are not defaulted. -/
theorem c6_dims_defaults :
    (∀ d : Int, jsOrDefault none d = d) ∧
    (∀ d : Int, jsOrDefault (some 0) d = d) ∧
    (∀ v d : Int, v ≠ 0 → jsOrDefault (some v) d = v) ∧
    handlerDims none none = (480, 800) := by
  refine ⟨fun d => rfl, fun d => by simp [jsOrDefault],
    fun v d hv => by simp [jsOrDefault, hv], rfl⟩

theorem c6_dims_defaults_witness : jsOrDefault (some (-5)) 480 = -5 :=
  c6_dims_defaults.2.2.1 (-5) 480 (by decide)

theorem truncStep_length {t : String} (h : 3 < t.length) :
    (String.mk (t.data.take (t.length - 4)) ++ "...").length =
      t.length - 1 := by
  have hlen : t.length = t.data.length := rfl
  simp only [String.length_append]
  have h1 : (String.mk (t.data.take (t.length - 4))).length =
      min (t.length - 4) t.data.length := by
    rw [String.length_mk, List.length_take]
  have h2 : ("..." : String).length = 3 := rfl
  omega

theorem truncateLoop_succ (maxW : Int) : ∀ (fuel : Nat) (t : String),
    t.length ≤ fuel →
    truncateLoop maxW (fuel + 1) t = truncateLoop maxW fuel t := by
  intro fuel
  induction fuel with
  | zero =>
    intro t ht
    simp only [truncateLoop]
    rw [if_neg (fun hc => absurd hc.2 (by omega))]
  | succ f ih =>
    intro t ht
    rw [truncateLoop]
    conv_rhs => rw [truncateLoop]
    by_cases hc : getTextWidth t 2 > maxW ∧ t.length > 3
    · rw [if_pos hc, if_pos hc]
      exact ih _ (by have := truncStep_length hc.2; omega)
    · rw [if_neg hc, if_neg hc]

theorem truncateLoop_fuel (maxW : Int) (t : String) (fuel : Nat)
    (ht : t.length ≤ fuel) :
    truncateLoop maxW fuel t = truncateTitle maxW t := by
  unfold truncateTitle
  obtain ⟨k, rfl⟩ : ∃ k, fuel = t.length + k := ⟨fuel - t.length, by omega⟩
  induction k with
  | zero => rfl
  | succ k ih =>
    rw [show t.length + (k + 1) = (t.length + k) + 1 from rfl,
      truncateLoop_succ maxW (t.length + k) t (by omega)]
    exact ih (by omega)

/-- C7: the title-truncation loop terminates — `title.length` iterations of
fuel always reach the loop's exit, so any larger fuel gives the same
result — and it never slices below the string's start: a string of at most
3 characters is returned untouched, and the result never drops below 3
characters (each slice only happens on strings longer than 3 characters,
removing 4 and appending the 3-character ellipsis). -/
theorem c7_truncation_safe :
    (∀ (maxW : Int) (t : String) (fuel : Nat), t.length ≤ fuel →
      truncateLoop maxW fuel t = truncateTitle maxW t) ∧
    (∀ (maxW : Int) (t : String), t.length ≤ 3 → truncateTitle maxW t = t) ∧
    (∀ (maxW : Int) (t : String),
      min t.length 3 ≤ (truncateTitle maxW t).length) := by
  refine ⟨fun maxW t fuel ht => truncateLoop_fuel maxW t fuel ht, ?_, ?_⟩
  · intro maxW t ht
    rcases Nat.eq_zero_or_pos t.length with h0 | hpos
    · rw [truncateTitle, h0]
      rfl
    · obtain ⟨n, hn⟩ : ∃ k, t.length = k + 1 := ⟨t.length - 1, by omega⟩
      rw [truncateTitle, hn, truncateLoop,
        if_neg (fun hc => absurd hc.2 (by omega))]
  · intro maxW t
    have key : ∀ (fuel : Nat) (s : String),
        min s.length 3 ≤ (truncateLoop maxW fuel s).length := by
      intro fuel
      induction fuel with
      | zero =>
        intro s
        rw [truncateLoop]
        omega
      | succ f ih =>
        intro s
        rw [truncateLoop]
        by_cases hc : getTextWidth s 2 > maxW ∧ s.length > 3
        · rw [if_pos hc]
          have hs := truncStep_length hc.2
          have hr := ih (String.mk (s.data.take (s.length - 4)) ++ "...")
          omega
        · rw [if_neg hc]
          omega
    exact key t.length t

/-- C8: truncation is idempotent — when the truncated title already
measures at most the available column width, re-running the truncation
procedure on it returns it unchanged. -/
theorem c8_truncation_idempotent (maxW : Int) (t : String)
    (h : getTextWidth (truncateTitle maxW t) 2 ≤ maxW) :
    truncateTitle maxW (truncateTitle maxW t) = truncateTitle maxW t := by
  have exit : ∀ (fuel : Nat) (s : String), getTextWidth s 2 ≤ maxW →
      truncateLoop maxW fuel s = s := by
    intro fuel s hs
    cases fuel with
    | zero => rfl
    | succ f => rw [truncateLoop, if_neg (fun hc => absurd hc.1 (by omega))]
  unfold truncateTitle
  exact exit _ _ h

theorem c8_truncation_idempotent_witness :
    truncateTitle 100 (truncateTitle 100 "abc") = truncateTitle 100 "abc" :=
  c8_truncation_idempotent 100 "abc" (by decide)

/-- C4: the icon dispatch selects the sun renderer for codes 0-1, cloud for
2-3, fog for 45-48, rain for 51-67 and 80-82, snow for 71-77 and 85-86,
thunderstorm for every code ≥ 95, and the unknown ("?") renderer for every
other integer code — in particular the negative sentinel -1 — always
producing a trace (never failing). -/
theorem c4_icon_dispatch (o : ArcOracle) (width x y code : Int) :
    ((code = 0 ∨ code = 1) →
      drawWeatherIcon o width x y code = sunIcon o width x y) ∧
    ((2 ≤ code ∧ code ≤ 3) →
      drawWeatherIcon o width x y code = cloudIcon o width x y) ∧
    ((45 ≤ code ∧ code ≤ 48) →
      drawWeatherIcon o width x y code = fogIcon width x y) ∧
    (((51 ≤ code ∧ code ≤ 67) ∨ (80 ≤ code ∧ code ≤ 82)) →
      drawWeatherIcon o width x y code = rainIcon o width x y) ∧
    (((71 ≤ code ∧ code ≤ 77) ∨ (85 ≤ code ∧ code ≤ 86)) →
      drawWeatherIcon o width x y code = snowIcon o width x y) ∧
    (95 ≤ code → drawWeatherIcon o width x y code = thunderIcon o width x y) ∧
    (¬(code = 0 ∨ code = 1) → ¬(2 ≤ code ∧ code ≤ 3) →
      ¬(45 ≤ code ∧ code ≤ 48) →
      ¬((51 ≤ code ∧ code ≤ 67) ∨ (80 ≤ code ∧ code ≤ 82)) →
      ¬((71 ≤ code ∧ code ≤ 77) ∨ (85 ≤ code ∧ code ≤ 86)) →
      ¬(95 ≤ code) →
      drawWeatherIcon o width x y code = unknownIcon width x y) := by
  refine ⟨?_, ?_, ?_, ?_, ?_, ?_, ?_⟩
  · intro h
    rw [drawWeatherIcon, if_pos h]
  · intro h
    rw [drawWeatherIcon, if_neg (by omega), if_pos h]
  · intro h
    rw [drawWeatherIcon, if_neg (by omega), if_neg (by omega), if_pos h]
  · intro h
    rw [drawWeatherIcon, if_neg (by omega), if_neg (by omega),
      if_neg (by omega), if_pos h]
  · intro h
    rw [drawWeatherIcon, if_neg (by omega), if_neg (by omega),
      if_neg (by omega), if_neg (by omega), if_pos h]
  · intro h
    rw [drawWeatherIcon, if_neg (by omega), if_neg (by omega),
      if_neg (by omega), if_neg (by omega), if_neg (by omega), if_pos h]
  · intro h1 h2 h3 h4 h5 h6
    rw [drawWeatherIcon, if_neg h1, if_neg h2, if_neg h3, if_neg h4,
      if_neg h5, if_neg h6]

theorem c4_icon_dispatch_witness :
    drawWeatherIcon floorOracle 480 0 0 (-1) = unknownIcon 480 0 0 :=
  (c4_icon_dispatch floorOracle 480 0 0 (-1)).2.2.2.2.2.2 (by decide)
    (by decide) (by decide) (by decide) (by decide) (by decide)

/-- C1 counterexample: stamping the glyph `0` at origin `(0, 8)` into an
8×8 buffer performs a store at index 66 ∉ [0, 64) — `drawChar` does not
guard `py < height`, so a glyph origin beyond the buffer height writes
outside `[0, w*h)`, contradicting the claim. -/
theorem c1_counterexample :
    ¬ (∀ iv ∈ drawChar 8 0 8 '0' INK_BLACK 1, 0 ≤ iv.1 ∧ iv.1 < 8 * 8) := by
  decide

/-- C1 (amended): every store of glyph stamping, text drawing, and
`fillRect` has its column clipped to `[0, width)` and its row clipped below
at 0, and stays inside `[0, width*height)` — for `fillRect`
unconditionally (it also clips the row above), and for glyph/text stamping
provided the glyph's scaled height fits (`y + 8*scale ≤ height`); a glyph
origin beyond the bottom edge violates the upper bound (see the
counterexample). -/
theorem c1_store_bounds (width height x y : Int) (color : Nat)
    (scale : Int) :
    (∀ (char : Char), y + 8 * scale ≤ height →
      ∀ iv ∈ drawChar width x y char color scale,
        0 ≤ iv.1 ∧ iv.1 < width * height) ∧
    (∀ (s : String), y + 8 * scale ≤ height →
      ∀ iv ∈ drawText width x y s color scale,
        0 ≤ iv.1 ∧ iv.1 < width * height) ∧
    (∀ (w h : Int), ∀ iv ∈ fillRect width height x y w h color,
      0 ≤ iv.1 ∧ iv.1 < width * height) := by
  refine ⟨?_, ?_, ?_⟩
  · intro char hfit iv hm
    obtain ⟨-, px, py, hidx, hpx0, hpxw, hpy0, -, hpyb⟩ := drawChar_mem hm
    rw [hidx]
    constructor
    · exact rowcol_nonneg hpy0 hpx0 (by omega)
    · have : py * width + px < (height - 1 + 1) * width :=
        rowcol_lt hpx0 hpxw (by omega)
      have hww : (height - 1 + 1) * width = width * height := by ring
      omega
  · intro s hfit iv hm
    obtain ⟨-, px, py, hidx, hpx0, hpxw, hpy0, -, hpyb⟩ := drawText_mem hm
    rw [hidx]
    constructor
    · exact rowcol_nonneg hpy0 hpx0 (by omega)
    · have : py * width + px < (height - 1 + 1) * width :=
        rowcol_lt hpx0 hpxw (by omega)
      have hww : (height - 1 + 1) * width = width * height := by ring
      omega
  · intro w h iv hm
    obtain ⟨-, px, py, hidx, hpx0, hpxw, -, hpy0, -, -, hpyh⟩ :=
      fillRect_mem hm
    rw [hidx]
    constructor
    · exact rowcol_nonneg hpy0 hpx0 (by omega)
    · have : py * width + px < (height - 1 + 1) * width :=
        rowcol_lt hpx0 hpxw (by omega)
      have hww : (height - 1 + 1) * width = width * height := by ring
      omega

theorem c1_store_bounds_witness :
    0 ≤ ((34, 0) : Int × Nat).1 ∧ ((34, 0) : Int × Nat).1 < 8 * 20 :=
  (c1_store_bounds 8 20 0 4 0 1).1 '0' (by decide) (34, 0) (by decide)

theorem eventLoop_marker_shape (width maxContentY contentWidth : Int)
    (isToday : Bool) (total : Nat) :
    ∀ (events : List CalendarEvent) (idx : Nat) (y : Int) (c : Cmd),
      c ∈ (eventLoop width maxContentY contentWidth isToday total events
        idx y).1 →
      isMarkerCmd c = true →
      ∃ pre, (eventLoop width maxContentY contentWidth isToday total events
          idx y).1 = pre ++ [c] ∧
        (∀ c' ∈ pre, isMarkerCmd c' = false) ∧
        maxContentY < (eventLoop width maxContentY contentWidth isToday total
          events idx y).2 := by
  intro events
  induction events with
  | nil =>
    intro idx y c hc hmark
    cases hc
  | cons e rest ih =>
    intro idx y c hc hmark
    simp only [eventLoop] at hc ⊢
    by_cases hg : y + 30 > maxContentY
    · rw [if_pos hg] at hc ⊢
      by_cases hr : total - idx > 0
      · rw [if_pos hr] at hc ⊢
        simp only [List.mem_singleton] at hc
        subst hc
        exact ⟨[], rfl, fun c' hc' => absurd hc' (List.not_mem_nil c'),
          by omega⟩
      · rw [if_neg hr] at hc
        cases hc
    · rw [if_neg hg] at hc ⊢
      simp only [List.mem_cons, List.mem_append] at hc
      rcases hc with rfl | rfl | hc | hc
      · cases isToday <;> simp [isMarkerCmd, INK_BLACK, DARK_GRAY,
          LIGHT_GRAY] at hmark
      · cases isToday <;> simp [isMarkerCmd, INK_BLACK, DARK_GRAY,
          LIGHT_GRAY] at hmark
      · by_cases hd : idx < total - 1 ∧ y + 26 + 45 ≤ maxContentY
        · rw [if_pos hd] at hc
          simp only [List.mem_singleton] at hc
          subst hc
          simp [isMarkerCmd] at hmark
        · rw [if_neg hd] at hc
          cases hc
      · obtain ⟨pre, hpre, hfree, hsnd⟩ := ih (idx + 1) (y + 26 + (45 - 26))
          c hc hmark
        refine ⟨Cmd.text 24 y e.time (if isToday then INK_BLACK else
            DARK_GRAY) 2 :: Cmd.text (24 + 100) y (truncateTitle
            (contentWidth - 100 - 10) e.title) (if isToday then INK_BLACK
            else DARK_GRAY) 2 :: ((if idx < total - 1 ∧ y + 26 + 45 ≤
            maxContentY then [Cmd.hline (y + 26) 24 (width - 24) LIGHT_GRAY
            1] else []) ++ pre), ?_, ?_, hsnd⟩
        · rw [hpre]
          simp
        · intro c' hc'
          simp only [List.mem_cons, List.mem_append] at hc'
          rcases hc' with rfl | rfl | hc' | hc'
          · cases isToday <;> rfl
          · cases isToday <;> rfl
          · by_cases hd : idx < total - 1 ∧ y + 26 + 45 ≤ maxContentY
            · rw [if_pos hd] at hc'
              simp only [List.mem_singleton] at hc'
              subst hc'
              rfl
            · rw [if_neg hd] at hc'
              cases hc'
          · exact hfree c' hc'

theorem eventLoop_marker_count (width maxContentY contentWidth : Int)
    (isToday : Bool) (total : Nat) :
    ∀ (events : List CalendarEvent) (idx : Nat) (y : Int) (c : Cmd),
      idx + events.length = total →
      c ∈ (eventLoop width maxContentY contentWidth isToday total events
        idx y).1 →
      isMarkerCmd c = true →
      ∃ ys : Int, c = Cmd.text 24 ys
          ("+" ++ toString (total - (idx + timeCount (eventLoop width
            maxContentY contentWidth isToday total events idx y).1)) ++
            " more...") LIGHT_GRAY 2 ∧
        idx + timeCount (eventLoop width maxContentY contentWidth isToday
          total events idx y).1 < total := by
  intro events
  induction events with
  | nil =>
    intro idx y c hinv hc hmark
    cases hc
  | cons e rest ih =>
    intro idx y c hinv hc hmark
    simp only [eventLoop] at hc ⊢
    by_cases hg : y + 30 > maxContentY
    · rw [if_pos hg] at hc ⊢
      by_cases hr : total - idx > 0
      · rw [if_pos hr] at hc ⊢
        simp only [List.mem_singleton] at hc
        subst hc
        have h0 : timeCount [Cmd.text 24 y ("+" ++ toString (total - idx) ++
            " more...") LIGHT_GRAY 2] = 0 := rfl
        rw [h0]
        exact ⟨y, by rw [Nat.add_zero], by omega⟩
      · rw [if_neg hr] at hc
        cases hc
    · rw [if_neg hg] at hc ⊢
      have hcount : timeCount (Cmd.text 24 y e.time (if isToday then
          INK_BLACK else DARK_GRAY) 2 :: Cmd.text (24 + 100) y
          (truncateTitle (contentWidth - 100 - 10) e.title) (if isToday
          then INK_BLACK else DARK_GRAY) 2 :: ((if idx < total - 1 ∧
          y + 26 + 45 ≤ maxContentY then [Cmd.hline (y + 26) 24
          (width - 24) LIGHT_GRAY 1] else []) ++ (eventLoop width
          maxContentY contentWidth isToday total rest (idx + 1)
          (y + 26 + (45 - 26))).1)) = 1 + timeCount (eventLoop width
          maxContentY contentWidth isToday total rest (idx + 1)
          (y + 26 + (45 - 26))).1 := by
        by_cases hd : idx < total - 1 ∧ y + 26 + 45 ≤ maxContentY
        · cases isToday <;>
            simp [timeCount, List.filter_append, if_pos hd, INK_BLACK,
              DARK_GRAY, LIGHT_GRAY] <;> omega
        · cases isToday <;>
            simp [timeCount, List.filter_append, if_neg hd, INK_BLACK,
              DARK_GRAY, LIGHT_GRAY] <;> omega
      simp only [List.mem_cons, List.mem_append] at hc
      rcases hc with rfl | rfl | hc | hc
      · cases isToday <;> simp [isMarkerCmd, INK_BLACK, DARK_GRAY,
          LIGHT_GRAY] at hmark
      · cases isToday <;> simp [isMarkerCmd, INK_BLACK, DARK_GRAY,
          LIGHT_GRAY] at hmark
      · by_cases hd : idx < total - 1 ∧ y + 26 + 45 ≤ maxContentY
        · rw [if_pos hd] at hc
          simp only [List.mem_singleton] at hc
          subst hc
          simp [isMarkerCmd] at hmark
        · rw [if_neg hd] at hc
          cases hc
      · obtain ⟨ys, hys, hlt⟩ := ih (idx + 1) (y + 26 + (45 - 26)) c
          (by simp at hinv ⊢; omega) hc hmark
        rw [hcount]
        refine ⟨ys, ?_, by omega⟩
        rw [hys]
        have harith : total - (idx + 1 + timeCount (eventLoop width
            maxContentY contentWidth isToday total rest (idx + 1)
            (y + 26 + (45 - 26))).1) = total - (idx + (1 + timeCount
            (eventLoop width maxContentY contentWidth isToday total rest
            (idx + 1) (y + 26 + (45 - 26))).1)) := by omega
        rw [harith]

theorem dayLoop_nil_of_gt (width maxContentY contentWidth : Int)
    (days : List DayEvents) (dayIndex : Nat) (y : Int)
    (hy : maxContentY < y) :
    dayLoop width maxContentY contentWidth days dayIndex y = [] := by
  cases days with
  | nil => rfl
  | cons d rest => rw [dayLoop, if_pos (by omega)]

theorem dayLoop_marker_last (width maxContentY contentWidth : Int) :
    ∀ (days : List DayEvents) (dayIndex : Nat) (y : Int) (c : Cmd),
      c ∈ dayLoop width maxContentY contentWidth days dayIndex y →
      isMarkerCmd c = true →
      ∃ pre, dayLoop width maxContentY contentWidth days dayIndex y =
          pre ++ [c] ∧ ∀ c' ∈ pre, isMarkerCmd c' = false := by
  intro days
  induction days with
  | nil =>
    intro dayIndex y c hc hmark
    cases hc
  | cons day rest ih =>
    intro dayIndex y c hc hmark
    simp only [dayLoop] at hc ⊢
    by_cases hg : y + (40 + 45) > maxContentY
    · rw [if_pos hg] at hc
      cases hc
    · rw [if_neg hg] at hc ⊢
      by_cases hev : day.events.length = 0
      · rw [if_pos hev] at hc ⊢
        simp only [List.mem_append, List.mem_cons] at hc
        rcases hc with hc | rfl | rfl | hc
        · by_cases hfd : dayIndex = 0
          · rw [if_pos hfd] at hc
            cases hc
          · rw [if_neg hfd] at hc
            simp only [List.mem_singleton] at hc
            subst hc
            simp [isMarkerCmd] at hmark
        · by_cases ht : day.label = "TODAY" <;>
            simp [isMarkerCmd, ht, INK_BLACK, DARK_GRAY, LIGHT_GRAY] at hmark
        · simp [isMarkerCmd] at hmark
        · obtain ⟨pre, hpre, hfree⟩ := ih (dayIndex + 1)
            ((if dayIndex = 0 then y else y + 15) + (40 - 5) + 45) c hc hmark
          refine ⟨(if dayIndex = 0 then ([] : List Cmd) else
              [Cmd.dashed y 24 (width - 24) DARK_GRAY 6 4]) ++
              Cmd.text 24 (if dayIndex = 0 then y else y + 15) day.label
                (if day.label = "TODAY" then INK_BLACK else DARK_GRAY) 2 ::
              Cmd.text (24 + 100) ((if dayIndex = 0 then y else y + 15) +
                (40 - 5)) "No events" LIGHT_GRAY 2 :: pre, ?_, ?_⟩
          · rw [hpre]
            simp
          · intro c' hc'
            simp only [List.mem_append, List.mem_cons] at hc'
            rcases hc' with hc' | rfl | rfl | hc'
            · by_cases hfd : dayIndex = 0
              · rw [if_pos hfd] at hc'
                cases hc'
              · rw [if_neg hfd] at hc'
                simp only [List.mem_singleton] at hc'
                subst hc'
                rfl
            · by_cases ht : day.label = "TODAY" <;> simp [isMarkerCmd, ht,
                INK_BLACK, DARK_GRAY, LIGHT_GRAY]
            · rfl
            · exact hfree c' hc'
      · rw [if_neg hev] at hc ⊢
        simp only [List.mem_append, List.mem_cons] at hc
        rcases hc with hc | rfl | hc | hc
        · by_cases hfd : dayIndex = 0
          · rw [if_pos hfd] at hc
            cases hc
          · rw [if_neg hfd] at hc
            simp only [List.mem_singleton] at hc
            subst hc
            simp [isMarkerCmd] at hmark
        · by_cases ht : day.label = "TODAY" <;>
            simp [isMarkerCmd, ht, INK_BLACK, DARK_GRAY, LIGHT_GRAY] at hmark
        · obtain ⟨pre1, hpre1, hfree1, hsnd⟩ := eventLoop_marker_shape width
            maxContentY contentWidth (day.label = "TODAY")
            day.events.length day.events 0
            ((if dayIndex = 0 then y else y + 15) + (40 - 5)) c hc hmark
          have hrec := dayLoop_nil_of_gt width maxContentY contentWidth rest
            (dayIndex + 1) (eventLoop width maxContentY contentWidth
              (day.label = "TODAY") day.events.length day.events 0
              ((if dayIndex = 0 then y else y + 15) + (40 - 5))).2 hsnd
          refine ⟨(if dayIndex = 0 then ([] : List Cmd) else
              [Cmd.dashed y 24 (width - 24) DARK_GRAY 6 4]) ++
              Cmd.text 24 (if dayIndex = 0 then y else y + 15) day.label
                (if day.label = "TODAY" then INK_BLACK else DARK_GRAY) 2 ::
              pre1, ?_, ?_⟩
          · rw [hpre1, hrec]
            simp
          · intro c' hc'
            simp only [List.mem_append, List.mem_cons] at hc'
            rcases hc' with hc' | rfl | hc'
            · by_cases hfd : dayIndex = 0
              · rw [if_pos hfd] at hc'
                cases hc'
              · rw [if_neg hfd] at hc'
                simp only [List.mem_singleton] at hc'
                subst hc'
                rfl
            · by_cases ht : day.label = "TODAY" <;> simp [isMarkerCmd, ht,
                INK_BLACK, DARK_GRAY, LIGHT_GRAY]
            · exact hfree1 c' hc'
        · by_cases hm1 : ∃ m ∈ (eventLoop width maxContentY contentWidth
              (day.label = "TODAY") day.events.length day.events 0
              ((if dayIndex = 0 then y else y + 15) + (40 - 5))).1,
              isMarkerCmd m = true
          · obtain ⟨m, hm, hmm⟩ := hm1
            obtain ⟨-, -, -, hsnd⟩ := eventLoop_marker_shape width
              maxContentY contentWidth (day.label = "TODAY")
              day.events.length day.events 0
              ((if dayIndex = 0 then y else y + 15) + (40 - 5)) m hm hmm
            rw [dayLoop_nil_of_gt width maxContentY contentWidth rest
              (dayIndex + 1) _ hsnd] at hc
            cases hc
          · obtain ⟨pre2, hpre2, hfree2⟩ := ih (dayIndex + 1)
              (eventLoop width maxContentY contentWidth
                (day.label = "TODAY") day.events.length day.events 0
                ((if dayIndex = 0 then y else y + 15) + (40 - 5))).2 c hc
              hmark
            refine ⟨(if dayIndex = 0 then ([] : List Cmd) else
                [Cmd.dashed y 24 (width - 24) DARK_GRAY 6 4]) ++
                Cmd.text 24 (if dayIndex = 0 then y else y + 15) day.label
                  (if day.label = "TODAY" then INK_BLACK else DARK_GRAY) 2 ::
                ((eventLoop width maxContentY contentWidth
                  (day.label = "TODAY") day.events.length day.events 0
                  ((if dayIndex = 0 then y else y + 15) + (40 - 5))).1 ++
                  pre2), ?_, ?_⟩
            · rw [hpre2]
              simp
            · intro c' hc'
              simp only [List.mem_append, List.mem_cons] at hc'
              rcases hc' with hc' | rfl | hc' | hc'
              · by_cases hfd : dayIndex = 0
                · rw [if_pos hfd] at hc'
                  cases hc'
                · rw [if_neg hfd] at hc'
                  simp only [List.mem_singleton] at hc'
                  subst hc'
                  rfl
              · by_cases ht : day.label = "TODAY" <;> simp [isMarkerCmd, ht,
                  INK_BLACK, DARK_GRAY, LIGHT_GRAY]
              · cases hb : isMarkerCmd c' with
                | false => rfl
                | true => exact absurd ⟨c', hc', hb⟩ hm1
              · exact hfree2 c' hc'

/-- C2: when a day's events overflow the remaining vertical space, the
agenda loop paints exactly one "+N more..." marker and then paints nothing
else — any marker command in the day-loop trace is its final command,
everything before it is not a marker, so no later day paints anything —
and the marker's `N` is exactly the number of unpainted events of that day
(the day's event count minus the number of event rows actually painted). -/
theorem c2_overflow_marker (width maxContentY contentWidth : Int) :
    (∀ (days : List DayEvents) (dayIndex : Nat) (y : Int) (c : Cmd),
      c ∈ dayLoop width maxContentY contentWidth days dayIndex y →
      isMarkerCmd c = true →
      ∃ pre, dayLoop width maxContentY contentWidth days dayIndex y =
          pre ++ [c] ∧ ∀ c' ∈ pre, isMarkerCmd c' = false) ∧
    (∀ (isToday : Bool) (events : List CalendarEvent) (y : Int) (c : Cmd),
      c ∈ (eventLoop width maxContentY contentWidth isToday events.length
        events 0 y).1 →
      isMarkerCmd c = true →
      ∃ ys : Int, c = Cmd.text 24 ys
          ("+" ++ toString (events.length - timeCount (eventLoop width
            maxContentY contentWidth isToday events.length events 0 y).1) ++
            " more...") LIGHT_GRAY 2 ∧
        timeCount (eventLoop width maxContentY contentWidth isToday
          events.length events 0 y).1 < events.length) := by
  refine ⟨dayLoop_marker_last width maxContentY contentWidth, ?_⟩
  intro isToday events y c hc hmark
  obtain ⟨ys, hys, hlt⟩ := eventLoop_marker_count width maxContentY
    contentWidth isToday events.length events 0 y c (by omega) hc hmark
  rw [Nat.zero_add] at hys hlt
  exact ⟨ys, hys, hlt⟩

theorem c2_overflow_marker_witness :
    ∃ ys : Int, Cmd.text 24 395 "+2 more..." LIGHT_GRAY 2 = Cmd.text 24 ys
        ("+" ++ toString ((([⟨"09:00", "a", false⟩, ⟨"10:00", "b", false⟩,
          ⟨"11:00", "c", false⟩, ⟨"12:00", "d", false⟩] :
          List CalendarEvent)).length - timeCount (eventLoop 480 400 432
          true ([⟨"09:00", "a", false⟩, ⟨"10:00", "b", false⟩,
          ⟨"11:00", "c", false⟩, ⟨"12:00", "d", false⟩] :
          List CalendarEvent).length [⟨"09:00", "a", false⟩,
          ⟨"10:00", "b", false⟩, ⟨"11:00", "c", false⟩,
          ⟨"12:00", "d", false⟩] 0 305).1) ++ " more...") LIGHT_GRAY 2 ∧
      timeCount (eventLoop 480 400 432 true ([⟨"09:00", "a", false⟩,
        ⟨"10:00", "b", false⟩, ⟨"11:00", "c", false⟩,
        ⟨"12:00", "d", false⟩] : List CalendarEvent).length
        [⟨"09:00", "a", false⟩, ⟨"10:00", "b", false⟩,
        ⟨"11:00", "c", false⟩, ⟨"12:00", "d", false⟩] 0 305).1 <
      ([⟨"09:00", "a", false⟩, ⟨"10:00", "b", false⟩, ⟨"11:00", "c", false⟩,
        ⟨"12:00", "d", false⟩] : List CalendarEvent).length :=
  (c2_overflow_marker 480 400 432).2 true
    [⟨"09:00", "a", false⟩, ⟨"10:00", "b", false⟩, ⟨"11:00", "c", false⟩,
     ⟨"12:00", "d", false⟩] 305
    (Cmd.text 24 395 "+2 more..." LIGHT_GRAY 2) (by decide) (by decide)

theorem goodColor_mod (v : Nat) (h : goodColor v) : goodColor (v % 256) := by
  rcases h with rfl | rfl | rfl | rfl <;> simp [goodColor, INK_BLACK,
    DARK_GRAY, LIGHT_GRAY, PAPER_WHITE]

theorem cmdWrites_value (o : ArcOracle) (w : Int) (c : Cmd)
    (hc : cmdColorGood c) : ∀ iv ∈ cmdWrites o w c, goodColor iv.2 := by
  intro iv hm
  cases c with
  | text x y s color scale =>
    rw [(drawText_mem hm).1]
    exact hc
  | centered y s color scale =>
    rw [(drawText_mem hm).1]
    exact hc
  | rightAligned y s color scale margin =>
    rw [(drawText_mem hm).1]
    exact hc
  | hline y x1 x2 color thickness =>
    rw [(fillRect_mem hm).1]
    exact hc
  | dashed y x1 x2 color dashLen gapLen =>
    rw [drawDashedHLine_value hm]
    exact hc
  | icon x y code =>
    rcases (drawWeatherIcon_mem hm).1 with hv | hv <;> rw [hv]
    · exact Or.inl rfl
    · exact Or.inr (Or.inl rfl)

theorem eventLoop_colors (width maxContentY contentWidth : Int)
    (isToday : Bool) (total : Nat) :
    ∀ (events : List CalendarEvent) (idx : Nat) (y : Int),
      ∀ c ∈ (eventLoop width maxContentY contentWidth isToday total events
        idx y).1, cmdColorGood c := by
  intro events
  induction events with
  | nil =>
    intro idx y c hc
    cases hc
  | cons e rest ih =>
    intro idx y c hc
    simp only [eventLoop] at hc
    by_cases hg : y + 30 > maxContentY
    · rw [if_pos hg] at hc
      by_cases hr : total - idx > 0
      · rw [if_pos hr] at hc
        simp only [List.mem_singleton] at hc
        subst hc
        simp [cmdColorGood, goodColor]
      · rw [if_neg hr] at hc
        cases hc
    · rw [if_neg hg] at hc
      simp only [List.mem_cons, List.mem_append] at hc
      rcases hc with rfl | rfl | hc | hc
      · cases isToday <;> simp [cmdColorGood, goodColor]
      · cases isToday <;> simp [cmdColorGood, goodColor]
      · by_cases hd : idx < total - 1 ∧ y + 26 + 45 ≤ maxContentY
        · rw [if_pos hd] at hc
          simp only [List.mem_singleton] at hc
          subst hc
          simp [cmdColorGood, goodColor]
        · rw [if_neg hd] at hc
          cases hc
      · exact ih (idx + 1) (y + 26 + (45 - 26)) c hc

theorem dayLoop_colors (width maxContentY contentWidth : Int) :
    ∀ (days : List DayEvents) (dayIndex : Nat) (y : Int),
      ∀ c ∈ dayLoop width maxContentY contentWidth days dayIndex y,
        cmdColorGood c := by
  intro days
  induction days with
  | nil =>
    intro dayIndex y c hc
    cases hc
  | cons day rest ih =>
    intro dayIndex y c hc
    simp only [dayLoop] at hc
    by_cases hg : y + (40 + 45) > maxContentY
    · rw [if_pos hg] at hc
      cases hc
    · rw [if_neg hg] at hc
      by_cases hev : day.events.length = 0
      · rw [if_pos hev] at hc
        simp only [List.mem_append, List.mem_cons] at hc
        rcases hc with hc | rfl | rfl | hc
        · by_cases hfd : dayIndex = 0
          · rw [if_pos hfd] at hc
            cases hc
          · rw [if_neg hfd] at hc
            simp only [List.mem_singleton] at hc
            subst hc
            simp [cmdColorGood, goodColor]
        · by_cases ht : day.label = "TODAY" <;>
            simp [cmdColorGood, goodColor, ht]
        · simp [cmdColorGood, goodColor]
        · exact ih (dayIndex + 1) _ c hc
      · rw [if_neg hev] at hc
        simp only [List.mem_append, List.mem_cons] at hc
        rcases hc with hc | rfl | hc | hc
        · by_cases hfd : dayIndex = 0
          · rw [if_pos hfd] at hc
            cases hc
          · rw [if_neg hfd] at hc
            simp only [List.mem_singleton] at hc
            subst hc
            simp [cmdColorGood, goodColor]
        · by_cases ht : day.label = "TODAY" <;>
            simp [cmdColorGood, goodColor, ht]
        · exact eventLoop_colors width maxContentY contentWidth _ _
            day.events 0 _ c hc
        · exact ih (dayIndex + 1) _ c hc

theorem renderCmds_colors (width height : Int) (weather : WeatherData)
    (days : List DayEvents) (generatedAt : DateLike) :
    ∀ c ∈ renderCmds width height weather days generatedAt,
      cmdColorGood c := by
  intro c hc
  simp only [renderCmds, List.mem_append, List.mem_cons,
    List.not_mem_nil, or_false] at hc
  rcases hc with ((rfl | rfl | rfl | rfl | rfl | rfl | rfl | rfl | rfl) |
      hc) | (rfl | rfl)
  · simp [cmdColorGood, goodColor]
  · simp [cmdColorGood, goodColor]
  · simp [cmdColorGood]
  · simp [cmdColorGood, goodColor]
  · simp [cmdColorGood, goodColor]
  · simp [cmdColorGood, goodColor]
  · simp [cmdColorGood, goodColor]
  · simp [cmdColorGood, goodColor]
  · simp [cmdColorGood, goodColor]
  · exact dayLoop_colors width (height - 50) (width - 24 * 2) days 0
      (180 + 70 + 20) c hc
  · simp [cmdColorGood, goodColor]
  · simp [cmdColorGood, goodColor]

/-- C10: every byte of the pixel buffer produced by `renderDisplay` — for
every oracle, canvas size, weather, day list, and timestamp — is one of
exactly the four grayscale levels 0 (`INK_BLACK`), 64 (`DARK_GRAY`),
176 (`LIGHT_GRAY`), and 255 (`PAPER_WHITE`): the buffer starts
paper-white and every store uses one of the four levels. -/
theorem c10_four_gray_levels (o : ArcOracle) (width height : Int)
    (weather : WeatherData) (days : List DayEvents)
    (generatedAt : DateLike) (j : Int) :
    renderDisplay o width height weather days generatedAt j = INK_BLACK ∨
    renderDisplay o width height weather days generatedAt j = DARK_GRAY ∨
    renderDisplay o width height weather days generatedAt j = LIGHT_GRAY ∨
    renderDisplay o width height weather days generatedAt j = PAPER_WHITE
    := by
  have key : ∀ j, goodColor
      (renderDisplay o width height weather days generatedAt j) := by
    unfold renderDisplay
    refine applyWrites_preserve (fun iv hiv => ?_) (fun j' => ?_)
    · obtain ⟨c, hcm, hiv'⟩ := List.mem_flatMap.mp hiv
      exact goodColor_mod _ (cmdWrites_value o width c
        (renderCmds_colors width height weather days generatedAt c hcm)
        iv hiv')
    · exact Or.inr (Or.inr (Or.inr rfl))
  exact key j

theorem idx_lt_row {py px r : Int} (hpx0 : 0 ≤ px) (hpxw : px < 480)
    (hpy : py < r) : py * 480 + px < r * 480 := by nlinarith

theorem idx_ge_row {py px r : Int} (hpx0 : 0 ≤ px) (hpy : r ≤ py) :
    r * 480 ≤ py * 480 + px := by nlinarith

theorem renderCmds_empty_days (weather : WeatherData) (d : DateLike) :
    renderCmds 480 800 weather [] d =
      [Cmd.text 24 30 (toString weather.temperature) INK_BLACK 10,
       Cmd.text (24 + getTextWidth (toString weather.temperature) 10) 30
         "°" INK_BLACK 4,
       Cmd.icon 240 20 weather.conditionCode,
       Cmd.text 296 28 "BROOKLYN NY" INK_BLACK 2,
       Cmd.text 296 60 weather.condition DARK_GRAY 2,
       Cmd.text 296 92 ("H:" ++ toString weather.temperatureHigh ++ " L:" ++
         toString weather.temperatureLow) DARK_GRAY 2,
       Cmd.hline 180 24 456 INK_BLACK 3,
       Cmd.centered 200 (DAY_NAMES.getD d.getDay "" ++ ", " ++
         monthNames.getD d.getMonth "" ++ " " ++ toString d.getDate)
         INK_BLACK 3,
       Cmd.hline 250 24 456 INK_BLACK 2,
       Cmd.hline 760 24 456 LIGHT_GRAY 1,
       Cmd.rightAligned 770 ("Generated " ++ d.timeString) DARK_GRAY 1 24]
    := by
  norm_num [renderCmds, dayLoop]

theorem c9_trace_region (o : ArcOracle) (weather : WeatherData)
    (d : DateLike) :
    ∀ iv ∈ (renderCmds 480 800 weather [] d).flatMap (cmdWrites o 480),
      iv.1 < 252 * 480 ∨ 760 * 480 ≤ iv.1 := by
  intro iv hiv
  obtain ⟨c, hcm, hw⟩ := List.mem_flatMap.mp hiv
  rw [renderCmds_empty_days] at hcm
  simp only [List.mem_cons, List.not_mem_nil, or_false] at hcm
  rcases hcm with rfl | rfl | rfl | rfl | rfl | rfl | rfl | rfl | rfl |
    rfl | rfl
  · obtain ⟨-, px, py, hidx, hpx0, hpxw, -, -, hpy2⟩ := drawText_mem hw
    exact Or.inl (hidx ▸ idx_lt_row hpx0 hpxw (by omega))
  · obtain ⟨-, px, py, hidx, hpx0, hpxw, -, -, hpy2⟩ := drawText_mem hw
    exact Or.inl (hidx ▸ idx_lt_row hpx0 hpxw (by omega))
  · obtain ⟨px, py, hidx, hpx0, hpxw, -, hpy2⟩ :=
      (drawWeatherIcon_mem hw).2 (by norm_num) (by norm_num) (by norm_num)
    exact Or.inl (hidx ▸ idx_lt_row hpx0 hpxw (by omega))
  · obtain ⟨-, px, py, hidx, hpx0, hpxw, -, -, hpy2⟩ := drawText_mem hw
    exact Or.inl (hidx ▸ idx_lt_row hpx0 hpxw (by omega))
  · obtain ⟨-, px, py, hidx, hpx0, hpxw, -, -, hpy2⟩ := drawText_mem hw
    exact Or.inl (hidx ▸ idx_lt_row hpx0 hpxw (by omega))
  · obtain ⟨-, px, py, hidx, hpx0, hpxw, -, -, hpy2⟩ := drawText_mem hw
    exact Or.inl (hidx ▸ idx_lt_row hpx0 hpxw (by omega))
  · obtain ⟨-, px, py, hidx, hpx0, hpxw, -, -, -, hpy2, -⟩ :=
      fillRect_mem hw
    exact Or.inl (hidx ▸ idx_lt_row hpx0 hpxw (by omega))
  · obtain ⟨-, px, py, hidx, hpx0, hpxw, -, -, hpy2⟩ := drawText_mem hw
    exact Or.inl (hidx ▸ idx_lt_row hpx0 hpxw (by omega))
  · obtain ⟨-, px, py, hidx, hpx0, hpxw, -, -, -, hpy2, -⟩ :=
      fillRect_mem hw
    exact Or.inl (hidx ▸ idx_lt_row hpx0 hpxw (by omega))
  · obtain ⟨-, px, py, hidx, hpx0, hpxw, -, -, hpy1, -, -⟩ :=
      fillRect_mem hw
    exact Or.inr (hidx ▸ idx_ge_row hpx0 (by omega))
  · obtain ⟨-, px, py, hidx, hpx0, hpxw, -, hpy1, -⟩ := drawText_mem hw
    exact Or.inr (hidx ▸ idx_ge_row hpx0 (by omega))

theorem cmdWrites_hline (o : ArcOracle) (w y x1 x2 : Int) (color : Nat)
    (t : Int) : cmdWrites o w (Cmd.hline y x1 x2 color t) =
      fillRect w 9999 x1 y (x2 - x1) t color := rfl

/-- C9: with an empty day list, the composer still paints the weather band
(the heavy rule at row 180 is black), the date header (the rule at row 250
is black), and the footer (the thin rule at row 760 is light gray), and
every pixel of the agenda area — the rows strictly between the date-header
rule and the footer rule, indices `[252*480, 760*480)` — remains
paper-white (255), for every weather input, date, and arc oracle. -/
theorem c9_empty_days_frame (o : ArcOracle) (weather : WeatherData)
    (d : DateLike) :
    (∀ j : Int, 252 * 480 ≤ j → j < 760 * 480 →
      renderDisplay o 480 800 weather [] d j = PAPER_WHITE) ∧
    renderDisplay o 480 800 weather [] d (180 * 480 + 24) = INK_BLACK ∧
    renderDisplay o 480 800 weather [] d (250 * 480 + 24) = INK_BLACK ∧
    renderDisplay o 480 800 weather [] d (760 * 480 + 24) = LIGHT_GRAY := by
  have hfoot : ∀ (j0 : Int), j0 < 770 * 480 →
      ∀ iv ∈ cmdWrites o 480 (Cmd.rightAligned 770
        ("Generated " ++ d.timeString) DARK_GRAY 1 24), iv.1 ≠ j0 := by
    intro j0 hj0 iv hiv
    obtain ⟨-, px, py, hidx, hpx0, -, -, hpy1, -⟩ := drawText_mem hiv
    have h770 : (770 : Int) ≤ py := hpy1
    have := idx_ge_row hpx0 h770
    omega
  have hrule : ∀ (yr : Int) (color : Nat) (t : Int) (j0 : Int),
      j0 < yr * 480 →
      ∀ iv ∈ cmdWrites o 480 (Cmd.hline yr 24 456 color t), iv.1 ≠ j0 := by
    intro yr color t j0 hj0 iv hiv
    obtain ⟨-, px, py, hidx, hpx0, -, -, -, hpy1, -, -⟩ := fillRect_mem hiv
    have := idx_ge_row hpx0 hpy1
    omega
  have hdate : ∀ (j0 : Int), j0 < 200 * 480 →
      ∀ iv ∈ cmdWrites o 480 (Cmd.centered 200 (DAY_NAMES.getD d.getDay ""
        ++ ", " ++ monthNames.getD d.getMonth "" ++ " " ++
        toString d.getDate) INK_BLACK 3), iv.1 ≠ j0 := by
    intro j0 hj0 iv hiv
    obtain ⟨-, px, py, hidx, hpx0, -, -, hpy1, -⟩ := drawText_mem hiv
    have h200 : (200 : Int) ≤ py := hpy1
    have := idx_ge_row hpx0 h200
    omega
  refine ⟨?_, ?_, ?_, ?_⟩
  · intro j hj1 hj2
    unfold renderDisplay
    rw [applyWrites_not_mem (fun iv hiv => by
      rcases c9_trace_region o weather d iv hiv with h | h <;> omega)]
  · unfold renderDisplay
    rw [renderCmds_empty_days]
    simp only [List.flatMap_cons, List.flatMap_nil, List.append_nil,
      applyWrites_append]
    rw [applyWrites_not_mem (hfoot _ (by norm_num)),
      applyWrites_not_mem (hrule 760 LIGHT_GRAY 1 _ (by norm_num)),
      applyWrites_not_mem (hrule 250 INK_BLACK 2 _ (by norm_num)),
      applyWrites_not_mem (hdate _ (by norm_num)), cmdWrites_hline]
    have hmem : ((180 * 480 + 24 : Int), INK_BLACK) ∈
        fillRect 480 9999 24 180 (456 - 24) 3 INK_BLACK :=
      fillRect_mem_mk (by norm_num) (by norm_num) (by norm_num)
        (by norm_num) (by norm_num) (by norm_num) (by norm_num)
        (by norm_num)
    rw [applyWrites_last_value hmem (fun v' hv' => (fillRect_mem hv').1)
      (by norm_num) (by norm_num)]
    rfl
  · unfold renderDisplay
    rw [renderCmds_empty_days]
    simp only [List.flatMap_cons, List.flatMap_nil, List.append_nil,
      applyWrites_append]
    rw [applyWrites_not_mem (hfoot _ (by norm_num)),
      applyWrites_not_mem (hrule 760 LIGHT_GRAY 1 _ (by norm_num)),
      cmdWrites_hline]
    have hmem : ((250 * 480 + 24 : Int), INK_BLACK) ∈
        fillRect 480 9999 24 250 (456 - 24) 2 INK_BLACK :=
      fillRect_mem_mk (by norm_num) (by norm_num) (by norm_num)
        (by norm_num) (by norm_num) (by norm_num) (by norm_num)
        (by norm_num)
    rw [applyWrites_last_value hmem (fun v' hv' => (fillRect_mem hv').1)
      (by norm_num) (by norm_num)]
    rfl
  · unfold renderDisplay
    rw [renderCmds_empty_days]
    simp only [List.flatMap_cons, List.flatMap_nil, List.append_nil,
      applyWrites_append]
    rw [applyWrites_not_mem (hfoot _ (by norm_num)), cmdWrites_hline]
    have hmem : ((760 * 480 + 24 : Int), LIGHT_GRAY) ∈
        fillRect 480 9999 24 760 (456 - 24) 1 LIGHT_GRAY :=
      fillRect_mem_mk (by norm_num) (by norm_num) (by norm_num)
        (by norm_num) (by norm_num) (by norm_num) (by norm_num)
        (by norm_num)
    rw [applyWrites_last_value hmem (fun v' hv' => (fillRect_mem hv').1)
      (by norm_num) (by norm_num)]
    rfl

theorem c3_createBMP_layout_witness :
    (createBMP 2 1 (fun _ => 0)).data (54 + 255 * 4) = 255 :=
  ((c3_createBMP_layout 2 1 (fun _ => 0)).2.2.2.2.2 255 (by decide)).1

theorem c7_truncation_safe_witness :
    truncateLoop 0 5 "hello" = truncateTitle 0 "hello" :=
  c7_truncation_safe.1 0 "hello" 5 (by decide)

theorem c9_empty_days_frame_witness :
    renderDisplay floorOracle 480 800 ⟨72, 78, 61, "Clear", 0⟩ []
      ⟨0, 0, 1, "12:00"⟩ (252 * 480) = PAPER_WHITE :=
  (c9_empty_days_frame floorOracle ⟨72, 78, 61, "Clear", 0⟩
    ⟨0, 0, 1, "12:00"⟩).1 (252 * 480) (by decide) (by decide)
